import Mathlib

/-!
Verification of the jsocket library (python-json-socket).

This file shallowly embeds the parts of `jsocket/jsocket_base.py` and
`jsocket/tserver.py` that the specification's claims are about:

* the JSON payload codec used by `send_obj` / `read_obj`
  (Python's `json.dumps(obj, ensure_ascii=False)` and `json.loads`),
* UTF-8 encoding/decoding of the payload,
* the CRC-32 checksum (`zlib.crc32`),
* the frame layer of `JsonSocket.send_obj`, `JsonSocket._read`,
  `JsonSocket._read_header` and `JsonSocket.read_obj`,
* the client connect/retry loop of `JsonClient.connect`,
* the per-client statistics subsystem of `tserver.py`
  (`_note_connect`, `_note_disconnect`, `_note_message_in`,
  `_note_message_out`, `_note_failure`, `_set_client_identity`,
  `_merge_client_stats`, `_rekey_stats_map`, `_format_client_stats`,
  `get_client_stats`).

Machine integers are modelled as `Nat` (bytes are `Nat`s below 256, the
CRC state is a `Nat` below 2^32).  Sockets are modelled as byte streams:
a receive stream is the list of bytes the peer will deliver, followed by
what `recv` does afterwards (time out or signal close).  Wall-clock and
monotonic times are passed to the statistics events explicitly.

Modelling restrictions, stated once here: Python floats are not
representable (JSON numbers are modelled as integers, the only kind the
repository's code paths and tests exchange); lone UTF-16 surrogates in
`\u` escapes and Python's permissive `NaN`/`Infinity` literals are
likewise outside the model.  None of the claims depend on these.
-/

namespace JSock

/-- A decoded JSON value, as Python's `json` module produces them for the
payloads this library exchanges: `None`, `bool`, `int`, `str`, `list`,
`dict` (insertion ordered, string keys).  Strings are lists of unicode
scalar values. -/
inductive Json where
  | null : Json
  | bool (b : Bool) : Json
  | num (n : Int) : Json
  | str (s : List Char) : Json
  | arr (es : List Json) : Json
  | obj (ms : List (List Char × Json)) : Json

/-- Decimal digits with explicit fuel, so the definition is structurally
recursive and computes by kernel reduction; `natDigitsLSB` supplies enough. -/
def natDigitsLSBAux : Nat → Nat → List Nat
  | 0, _ => []
  | fuel + 1, n => if n < 10 then [n] else n % 10 :: natDigitsLSBAux fuel (n / 10)

/-- Decimal digits of `n`, least significant first (`n % 10` heads the list). -/
def natDigitsLSB (n : Nat) : List Nat := natDigitsLSBAux (n + 1) n

/-- The character of a decimal digit. -/
def digitChar (d : Nat) : Char := Char.ofNat (48 + d)

/-- Decimal digit characters of `n`, most significant first, as Python's
`str(n)` for a nonnegative `n` prints them. -/
def natChars (n : Nat) : List Char := (natDigitsLSB n).reverse.map digitChar

/-- Python's `str(i)` for an `int`: optional minus sign, then decimal digits. -/
def intChars (i : Int) : List Char :=
  if i < 0 then '-' :: natChars i.natAbs else natChars i.natAbs

/-- Lowercase hexadecimal digit character, as Python's `'%x'` formatting. -/
def hexDigitChar (d : Nat) : Char :=
  if d < 10 then Char.ofNat (48 + d) else Char.ofNat (87 + d)

/-- How `json.dumps(·, ensure_ascii=False)` writes one string character:
quote, backslash and the control characters below 0x20 are escaped (with
the two-character shorthands for backspace, tab, newline, formfeed and
carriage return), everything else is written literally. -/
def escapeChar (c : Char) : List Char :=
  if c = '"' then ['\\', '"']
  else if c = '\\' then ['\\', '\\']
  else if c = '\n' then ['\\', 'n']
  else if c = '\r' then ['\\', 'r']
  else if c = '\t' then ['\\', 't']
  else if c.toNat = 8 then ['\\', 'b']
  else if c.toNat = 12 then ['\\', 'f']
  else if c.toNat < 32 then
    ['\\', 'u', '0', '0', hexDigitChar (c.toNat / 16), hexDigitChar (c.toNat % 16)]
  else [c]

/-- A JSON string literal: quote, escaped characters, quote. -/
def strChars (s : List Char) : List Char :=
  '"' :: ((s.map escapeChar).flatten ++ ['"'])

mutual
/-- Python's `json.dumps(obj, ensure_ascii=False)` with the default
separators `', '` and `': '`, as `send_obj` calls it. -/
def dumps : Json → List Char
  | .num n => intChars n
  | .null => ['n', 'u', 'l', 'l']
  | .str s => strChars s
  | .bool true => ['t', 'r', 'u', 'e']
  | .arr es => '[' :: dumpsElems es
  | .bool false => ['f', 'a', 'l', 's', 'e']
  | .obj ms => '{' :: dumpsMembers ms

/-- Array items joined by `', '`, then the closing bracket. -/
def dumpsElems : List Json → List Char
  | [] => [']']
  | [e] => dumps e ++ [']']
  | e :: e2 :: es => dumps e ++ ',' :: ' ' :: dumpsElems (e2 :: es)

/-- Object members `"key": value` joined by `', '`, then the closing brace. -/
def dumpsMembers : List (List Char × Json) → List Char
  | [] => ['}']
  | [(k, v)] => strChars k ++ ':' :: ' ' :: (dumps v ++ ['}'])
  | (k, v) :: m2 :: ms =>
      strChars k ++ ':' :: ' ' :: (dumps v ++ ',' :: ' ' :: dumpsMembers (m2 :: ms))
end

/-! The parser, modelling `json.loads` on the document string: the pure-python
scanner of Python's `json.decoder` (strict mode, default hooks), restricted to
integer numbers as explained in the header. -/

/-- The whitespace characters Python's `json` scanner skips. -/
def isWs (c : Char) : Bool := c == ' ' || c == '\t' || c == '\n' || c == '\r'

/-- Drop leading JSON whitespace. -/
def skipWs : List Char → List Char
  | [] => []
  | c :: cs => if isWs c then skipWs cs else c :: cs

/-- Decimal digit test. -/
def isDigit (c : Char) : Bool := 48 ≤ c.toNat && c.toNat ≤ 57

/-- Numeric value of a run of decimal digit characters, most significant first. -/
def digitsVal (ds : List Char) : Nat :=
  ds.foldl (fun a c => a * 10 + (c.toNat - 48)) 0

/-- Python's number token (the `NUMBER_RE` step of the scanner) restricted to
integers: an optional minus sign then `0` or a nonzero-led digit run.  A `0`
followed by further digits matches only the single `0` (the regex's integer
part is `0|[1-9]\d*`), leaving the rest unconsumed exactly as Python does.  A
fractional part or exponent would make a float, which the model leaves out, so
those parses are rejected rather than misrepresented.  The test for a
fractional part or exponent beginning after the integer digits is
`floatFollows`. -/
def floatFollows : List Char → Bool
  | [] => false
  | c :: _ => c == '.' || c == 'e' || c == 'E'

/-- The number token itself; see the comment above `floatFollows`. -/
def parseNumTok (cs : List Char) : Option (Int × List Char) :=
  let (neg, cs1) : Bool × List Char :=
    match cs with
    | [] => (false, [])
    | c :: r => if c = '-' then (true, r) else (false, c :: r)
  match cs1.takeWhile isDigit, cs1.dropWhile isDigit with
  | [], _ => none
  | d :: ds, rest =>
      let (intDigits, numRest) : List Char × List Char :=
        if d = '0' then ([d], ds ++ rest) else (d :: ds, rest)
      if floatFollows numRest then none
      else
        let v : Int := digitsVal intDigits
        some (if neg then -v else v, numRest)

/-- Value of one hexadecimal digit character, either case. -/
def hexDigitVal (c : Char) : Option Nat :=
  if 48 ≤ c.toNat ∧ c.toNat ≤ 57 then some (c.toNat - 48)
  else if 97 ≤ c.toNat ∧ c.toNat ≤ 102 then some (c.toNat - 87)
  else if 65 ≤ c.toNat ∧ c.toNat ≤ 70 then some (c.toNat - 55)
  else none

/-- Value of a four-hex-digit `\uXXXX` escape. -/
def hex4Val (a b c d : Char) : Option Nat := do
  let va ← hexDigitVal a
  let vb ← hexDigitVal b
  let vc ← hexDigitVal c
  let vd ← hexDigitVal d
  some (((va * 16 + vb) * 16 + vc) * 16 + vd)

/-- The two-character escapes of Python's `json.decoder.BACKSLASH` table. -/
def unescape : Char → Option Char
  | '"' => some '"'
  | '\\' => some '\\'
  | '/' => some '/'
  | 'b' => some (Char.ofNat 8)
  | 'f' => some (Char.ofNat 12)
  | 'n' => some '\n'
  | 'r' => some '\r'
  | 't' => some '\t'
  | _ => none

/-- The body of a string literal after its opening quote (Python's
`py_scanstring`, strict mode: an unescaped control character below 0x20 is an
error).  Surrogate-pair recombination is not modelled (see the header); the
library's encoder never emits `\u` escapes at or above 0x20. -/
def parseStrBody : List Char → Option (List Char × List Char)
  | [] => none
  | c :: rest =>
    if c = '"' then some ([], rest)
    else if c = '\\' then
      match rest with
      | [] => none
      | e :: rest2 =>
        if e = 'u' then
          match rest2 with
          | a :: b :: c2 :: d :: rest3 => do
              let n ← hex4Val a b c2 d
              let (s, r) ← parseStrBody rest3
              some (Char.ofNat n :: s, r)
          | _ => none
        else do
          let ch ← unescape e
          let (s, r) ← parseStrBody rest2
          some (ch :: s, r)
    else if c.toNat < 32 then none
    else do
      let (s, r) ← parseStrBody rest
      some (c :: s, r)

/-- Insert-or-update on an insertion-ordered association list, the effect of
`d[k] = v` on a Python dict: an existing key keeps its position and takes the
new value, a new key is appended. -/
def dictSet (m : List (List Char × Json)) (k : List Char) (v : Json) :
    List (List Char × Json) :=
  match m with
  | [] => [(k, v)]
  | (k', v') :: t => if k' = k then (k, v) :: t else (k', v') :: dictSet t k v

/-- Building a Python dict from parsed members in order: on duplicate keys the
last value wins and the key keeps its first position, as `dict(pairs)` does. -/
def pyDict (ms : List (List Char × Json)) : List (List Char × Json) :=
  ms.foldl (fun m kv => dictSet m kv.1 kv.2) []

mutual
/-- One JSON value (Python's `scan_once` preceded by a whitespace skip).  The
fuel argument only bounds recursion and is decremented on every call; the
top-level entry point `loads` supplies more fuel than any parse can use. -/
def parseVal : Nat → List Char → Option (Json × List Char)
  | 0, _ => none
  | fuel + 1, cs =>
    match skipWs cs with
    | [] => none
    | c :: r =>
      if c = '"' then
        match parseStrBody r with
        | some (s, r') => some (.str s, r')
        | none => none
      else if c = '{' then
        match skipWs r with
        | [] => none
        | c' :: r' =>
          if c' = '}' then some (.obj [], r')
          else
            match parseMembers fuel (c' :: r') with
            | some (ms, r'') => some (.obj (pyDict ms), r'')
            | none => none
      else if c = '[' then
        match skipWs r with
        | [] => none
        | c' :: r' =>
          if c' = ']' then some (.arr [], r')
          else
            match parseElems fuel (c' :: r') with
            | some (es, r'') => some (.arr es, r'')
            | none => none
      else if c = 'n' then
        match r with
        | 'u' :: 'l' :: 'l' :: r' => some (.null, r')
        | _ => none
      else if c = 't' then
        match r with
        | 'r' :: 'u' :: 'e' :: r' => some (.bool true, r')
        | _ => none
      else if c = 'f' then
        match r with
        | 'a' :: 'l' :: 's' :: 'e' :: r' => some (.bool false, r')
        | _ => none
      else
        match parseNumTok (c :: r) with
        | some (n, r') => some (.num n, r')
        | none => none

/-- One or more comma-separated array items up to the closing bracket
(Python's `JSONArray` loop; the empty array was recognised by the caller). -/
def parseElems : Nat → List Char → Option (List Json × List Char)
  | 0, _ => none
  | fuel + 1, cs =>
    match parseVal fuel cs with
    | none => none
    | some (v, r) =>
      match skipWs r with
      | [] => none
      | c :: r' =>
        if c = ',' then
          match parseElems fuel (skipWs r') with
          | some (vs, r'') => some (v :: vs, r'')
          | none => none
        else if c = ']' then some ([v], r')
        else none

/-- One or more `"key": value` members up to the closing brace (Python's
`JSONObject` loop; the empty object was recognised by the caller). -/
def parseMembers : Nat → List Char → Option (List (List Char × Json) × List Char)
  | 0, _ => none
  | fuel + 1, cs =>
    match skipWs cs with
    | [] => none
    | c :: r =>
      if c = '"' then
        match parseStrBody r with
        | none => none
        | some (k, r1) =>
          match skipWs r1 with
          | [] => none
          | c2 :: r2 =>
            if c2 = ':' then
              match parseVal fuel (skipWs r2) with
              | none => none
              | some (v, r3) =>
                match skipWs r3 with
                | [] => none
                | c3 :: r4 =>
                  if c3 = ',' then
                    match parseMembers fuel (skipWs r4) with
                    | some (ms, r5) => some ((k, v) :: ms, r5)
                    | none => none
                  else if c3 = '}' then some ([(k, v)], r4)
                  else none
            else none
      else none
end

/-- Python's `json.loads` on a document string: parse one value and require
only whitespace after it (else `Extra data`).  The fuel `cs.length + 1`
exceeds what any successful parse consumes: every parser call either consumes
a character or hands off to a callee that first consumes one, so a nesting
level costs at most two fuel for at least one consumed character, and a
document of length `L` parses within `L + 1` fuel. -/
def loads (cs : List Char) : Option Json :=
  match parseVal (cs.length + 1) cs with
  | some (v, r) => if (skipWs r).isEmpty then some v else none
  | none => none

/-! Round-trip of the number token: `parseNumTok` inverts `intChars` whenever
what follows cannot extend the token. -/

theorem natDigitsLSBAux_irrel :
    ∀ f g n, n < f → n < g → natDigitsLSBAux f n = natDigitsLSBAux g n := by
  intro f
  induction f with
  | zero => omega
  | succ f ih =>
    intro g n hf hg
    cases g with
    | zero => omega
    | succ g =>
      simp only [natDigitsLSBAux]
      by_cases h : n < 10
      · simp [h]
      · have hd : n / 10 < n := Nat.div_lt_self (by omega) (by omega)
        simp only [h, if_false]
        rw [ih g (n / 10) (by omega) (by omega)]

theorem natDigitsLSB_small {n : Nat} (h : n < 10) : natDigitsLSB n = [n] := by
  simp [natDigitsLSB, natDigitsLSBAux, h]

theorem natDigitsLSBAux_succ (f n : Nat) :
    natDigitsLSBAux (f + 1) n = if n < 10 then [n] else n % 10 :: natDigitsLSBAux f (n / 10) :=
  rfl

theorem natDigitsLSB_large {n : Nat} (h : ¬ n < 10) :
    natDigitsLSB n = n % 10 :: natDigitsLSB (n / 10) := by
  have hd : n / 10 < n := Nat.div_lt_self (by omega) (by omega)
  rw [natDigitsLSB, natDigitsLSBAux_succ, if_neg h, natDigitsLSB,
    natDigitsLSBAux_irrel n (n / 10 + 1) (n / 10) (by omega) (by omega)]

theorem natChars_small {n : Nat} (h : n < 10) : natChars n = [digitChar n] := by
  simp [natChars, natDigitsLSB_small h]

theorem natChars_large {n : Nat} (h : ¬ n < 10) :
    natChars n = natChars (n / 10) ++ [digitChar (n % 10)] := by
  simp [natChars, natDigitsLSB_large h]

theorem digitChar_toNat {d : Nat} (h : d < 10) : (digitChar d).toNat = 48 + d := by
  interval_cases d <;> decide

theorem isDigit_digitChar {d : Nat} (h : d < 10) : isDigit (digitChar d) = true := by
  interval_cases d <;> decide

theorem digitChar_ne_zero {d : Nat} (h0 : d ≠ 0) (h : d < 10) : digitChar d ≠ '0' := by
  interval_cases d <;> simp_all <;> decide

theorem natChars_digits {n : Nat} : ∀ c ∈ natChars n, isDigit c = true := by
  induction n using Nat.strongRecOn with
  | _ n ih =>
    by_cases h : n < 10
    · rw [natChars_small h]
      intro c hc
      rw [List.mem_singleton] at hc
      exact hc ▸ isDigit_digitChar h
    · rw [natChars_large h]
      intro c hc
      rcases List.mem_append.1 hc with hc | hc
      · exact ih (n / 10) (Nat.div_lt_self (by omega) (by omega)) c hc
      · rw [List.mem_singleton] at hc
        exact hc ▸ isDigit_digitChar (Nat.mod_lt _ (by omega))

theorem natChars_head {n : Nat} (h0 : n ≠ 0) :
    ∃ c t, natChars n = c :: t ∧ isDigit c = true ∧ c ≠ '0' := by
  induction n using Nat.strongRecOn with
  | _ n ih =>
    by_cases h : n < 10
    · exact ⟨digitChar n, [], natChars_small h, isDigit_digitChar h, digitChar_ne_zero h0 h⟩
    · have hdiv : n / 10 ≠ 0 := by omega
      obtain ⟨c, t, hct, hd, hz⟩ := ih (n / 10) (Nat.div_lt_self (by omega) (by omega)) hdiv
      exact ⟨c, t ++ [digitChar (n % 10)], by rw [natChars_large h, hct]; rfl, hd, hz⟩

theorem digitsVal_snoc (X : List Char) (c : Char) :
    digitsVal (X ++ [c]) = digitsVal X * 10 + (c.toNat - 48) := by
  simp [digitsVal, List.foldl_append]

theorem digitsVal_natChars (n : Nat) : digitsVal (natChars n) = n := by
  induction n using Nat.strongRecOn with
  | _ n ih =>
    by_cases h : n < 10
    · rw [natChars_small h]
      simp [digitsVal, digitChar_toNat h]
    · rw [natChars_large h, digitsVal_snoc,
        ih (n / 10) (Nat.div_lt_self (by omega) (by omega)),
        digitChar_toNat (Nat.mod_lt _ (by omega))]
      omega

/-- Heads that close a number token: end of input or a non-digit. -/
def headNotDigit : List Char → Bool
  | [] => true
  | c :: _ => !isDigit c

theorem takeWhile_digits {ds rest : List Char} (hds : ∀ c ∈ ds, isDigit c = true)
    (hr : headNotDigit rest = true) :
    (ds ++ rest).takeWhile isDigit = ds ∧ (ds ++ rest).dropWhile isDigit = rest := by
  induction ds with
  | nil =>
    cases rest with
    | nil => simp
    | cons c t =>
      simp only [headNotDigit, Bool.not_eq_true'] at hr
      simp [List.takeWhile, List.dropWhile, hr]
  | cons d ds ih =>
    have hd : isDigit d = true := hds d (List.mem_cons_self ..)
    have := ih (fun c hc => hds c (List.mem_cons_of_mem _ hc))
    simp [List.takeWhile, List.dropWhile, hd, this.1, this.2]

/-- A remainder after which a rendered number token stops: empty, or headed by
a character that is neither a digit, a dot, nor an `e`/`E`.  Every position a
rendered value is followed by in a document qualifies. -/
def numDelim : List Char → Bool
  | [] => true
  | c :: _ => !(c == '.' || isDigit c || c == 'e' || c == 'E')

theorem numDelim_facts {ch : Char} {tl : List Char} (h : numDelim (ch :: tl) = true) :
    isDigit ch = false ∧ ch ≠ '.' ∧ ch ≠ 'e' ∧ ch ≠ 'E' := by
  rw [numDelim] at h
  constructor
  · cases hd : isDigit ch
    · rfl
    · rw [hd] at h
      simp at h
  · refine ⟨fun hc => ?_, fun hc => ?_, fun hc => ?_⟩ <;> subst hc <;> simp at h

theorem headNotDigit_of_numDelim {rest : List Char} (h : numDelim rest = true) :
    headNotDigit rest = true := by
  cases rest with
  | nil => rfl
  | cons c t => simp [headNotDigit, (numDelim_facts h).1]

theorem floatFollows_of_numDelim {rest : List Char} (h : numDelim rest = true) :
    floatFollows rest = false := by
  cases rest with
  | nil => rfl
  | cons c t =>
    obtain ⟨-, h1, h2, h3⟩ := numDelim_facts h
    simp [floatFollows, h1, h2, h3]

theorem parseNumTok_natChars {n : Nat} {rest : List Char} (hr : numDelim rest = true) :
    parseNumTok (natChars n ++ rest) = some ((n : Int), rest) := by
  obtain ⟨tw, dw⟩ := takeWhile_digits (natChars_digits (n := n)) (headNotDigit_of_numDelim hr)
  have hff := floatFollows_of_numDelim hr
  by_cases h0 : n = 0
  · subst h0
    have hn : natChars 0 = ['0'] := by rw [natChars_small (by omega)]; rfl
    rw [hn] at tw dw ⊢
    simp only [List.cons_append, List.nil_append] at tw dw ⊢
    simp only [parseNumTok]
    rw [if_neg (by decide : ¬ ('0' : Char) = '-')]
    rw [tw, dw]
    simp [hff, digitsVal]
  · obtain ⟨c0, t, hct, hd, hz⟩ := natChars_head h0
    have hcm : c0 ≠ '-' := by
      intro h; subst h; exact absurd hd (by decide)
    rw [hct] at tw dw ⊢
    simp only [List.cons_append] at tw dw ⊢
    simp only [parseNumTok]
    rw [if_neg hcm]
    rw [tw, dw]
    simp only [if_neg hz, hff, if_false]
    have : digitsVal (c0 :: t) = n := by
      have := digitsVal_natChars n
      rwa [hct] at this
    simp [this]

theorem parseNumTok_intChars {i : Int} {rest : List Char} (hr : numDelim rest = true) :
    parseNumTok (intChars i ++ rest) = some (i, rest) := by
  by_cases hi : i < 0
  · have habs : i.natAbs ≠ 0 := by omega
    obtain ⟨c0, t, hct, hd, hz⟩ := natChars_head habs
    obtain ⟨tw, dw⟩ :=
      takeWhile_digits (natChars_digits (n := i.natAbs)) (headNotDigit_of_numDelim hr)
    have hff := floatFollows_of_numDelim hr
    rw [hct] at tw dw
    simp only [List.cons_append] at tw dw
    rw [intChars, if_pos hi, hct]
    simp only [List.cons_append, parseNumTok]
    simp only [if_true, tw, dw]
    simp only [if_neg hz, hff, if_false]
    have hv : digitsVal (c0 :: t) = i.natAbs := by
      have := digitsVal_natChars i.natAbs
      rwa [hct] at this
    simp only [hv, if_pos rfl]
    have : -((i.natAbs : Nat) : Int) = i := by omega
    rw [this]
    simp
  · rw [intChars, if_neg hi, parseNumTok_natChars hr]
    congr 2
    omega

/-! Round-trip of string literals: `parseStrBody` inverts the escaping that
`strChars` applies. -/

theorem hexDigitVal_hexDigitChar {d : Nat} (h : d < 16) :
    hexDigitVal (hexDigitChar d) = some d := by
  interval_cases d <;> decide

theorem parseStrBody_esc2 {e ch : Char} (he : unescape e = some ch) (X : List Char) :
    parseStrBody ('\\' :: e :: X)
      = (parseStrBody X).bind (fun x => match x with | (s, r) => some (ch :: s, r)) := by
  have hu : ¬ e = 'u' := by
    intro h; subst h; simp [unescape] at he
  rw [parseStrBody.eq_def]
  simp [hu, he]

theorem parseStrBody_escU (a b c d : Char) (X : List Char) :
    parseStrBody ('\\' :: 'u' :: a :: b :: c :: d :: X)
      = (hex4Val a b c d).bind (fun n => (parseStrBody X).bind
          (fun x => match x with | (s, r) => some (Char.ofNat n :: s, r))) := by
  rw [parseStrBody.eq_def]
  rfl

theorem parseStrBody_lit {c : Char} (h1 : ¬ c = '"') (h2 : ¬ c = '\\')
    (h8 : ¬ c.toNat < 32) (X : List Char) :
    parseStrBody (c :: X)
      = (parseStrBody X).bind (fun x => match x with | (s, r) => some (c :: s, r)) := by
  rw [parseStrBody.eq_def]
  simp only [if_neg h1, if_neg h2, if_neg h8]
  rfl

theorem parseStrBody_escapeChar {c : Char} {X : List Char} {s r : List Char}
    (hX : parseStrBody X = some (s, r)) :
    parseStrBody (escapeChar c ++ X) = some (c :: s, r) := by
  by_cases h1 : c = '"'
  · subst h1; rw [escapeChar]; simp [parseStrBody_esc2 (by rfl : unescape '"' = some '"'), hX]
  by_cases h2 : c = '\\'
  · subst h2; rw [escapeChar]
    simp [parseStrBody_esc2 (by rfl : unescape '\\' = some '\\'), hX,
      if_neg (by decide : ¬ ('\\' : Char) = '"')]
  by_cases h3 : c = '\n'
  · subst h3; rw [escapeChar]
    simp only [if_neg (by decide : ¬ ('\n' : Char) = '"'),
      if_neg (by decide : ¬ ('\n' : Char) = '\\'), if_pos rfl, List.cons_append,
      List.nil_append]
    simp [parseStrBody_esc2 (by rfl : unescape 'n' = some '\n'), hX]
  by_cases h4 : c = '\r'
  · subst h4; rw [escapeChar]
    simp only [if_neg (by decide : ¬ ('\r' : Char) = '"'),
      if_neg (by decide : ¬ ('\r' : Char) = '\\'),
      if_neg (by decide : ¬ ('\r' : Char) = '\n'), if_pos rfl, List.cons_append,
      List.nil_append]
    simp [parseStrBody_esc2 (by rfl : unescape 'r' = some '\r'), hX]
  by_cases h5 : c = '\t'
  · subst h5; rw [escapeChar]
    simp only [if_neg (by decide : ¬ ('\t' : Char) = '"'),
      if_neg (by decide : ¬ ('\t' : Char) = '\\'),
      if_neg (by decide : ¬ ('\t' : Char) = '\n'),
      if_neg (by decide : ¬ ('\t' : Char) = '\r'), if_pos rfl, List.cons_append,
      List.nil_append]
    simp [parseStrBody_esc2 (by rfl : unescape 't' = some '\t'), hX]
  by_cases h6 : c.toNat = 8
  · have he : escapeChar c = ['\\', 'b'] := by
      rw [escapeChar]; simp [h1, h2, h3, h4, h5, h6]
    rw [he]
    simp only [List.cons_append, List.nil_append]
    rw [parseStrBody_esc2 (by rfl : unescape 'b' = some (Char.ofNat 8)), hX]
    have hc : Char.ofNat 8 = c := by rw [← h6, Char.ofNat_toNat]
    rw [hc]
    rfl
  by_cases h7 : c.toNat = 12
  · have he : escapeChar c = ['\\', 'f'] := by
      rw [escapeChar]; simp [h1, h2, h3, h4, h5, h6, h7]
    rw [he]
    simp only [List.cons_append, List.nil_append]
    rw [parseStrBody_esc2 (by rfl : unescape 'f' = some (Char.ofNat 12)), hX]
    have hc : Char.ofNat 12 = c := by rw [← h7, Char.ofNat_toNat]
    rw [hc]
    rfl
  by_cases h8 : c.toNat < 32
  · have he : escapeChar c
        = ['\\', 'u', '0', '0', hexDigitChar (c.toNat / 16), hexDigitChar (c.toNat % 16)] := by
      rw [escapeChar]; simp [h1, h2, h3, h4, h5, h6, h7, h8]
    rw [he]
    simp only [List.cons_append, List.nil_append]
    rw [parseStrBody_escU]
    rw [hex4Val]
    simp only [hexDigitVal_hexDigitChar (by omega : c.toNat / 16 < 16),
      hexDigitVal_hexDigitChar (by omega : c.toNat % 16 < 16)]
    have h0 : hexDigitVal '0' = some 0 := by decide
    simp only [h0, Option.bind_eq_bind, Option.some_bind, hX]
    have harith : ((0 * 16 + 0) * 16 + c.toNat / 16) * 16 + c.toNat % 16 = c.toNat := by
      omega
    rw [harith, Char.ofNat_toNat]
  · have he : escapeChar c = [c] := by
      rw [escapeChar]; simp [h1, h2, h3, h4, h5, h6, h7, h8]
    rw [he]
    simp only [List.singleton_append]
    rw [parseStrBody_lit h1 h2 h8, hX]
    rfl

theorem parseStrBody_strBody (s : List Char) :
    ∀ rest : List Char,
      parseStrBody ((s.map escapeChar).flatten ++ '"' :: rest) = some (s, rest) := by
  induction s with
  | nil =>
    intro rest
    rw [List.map_nil, List.flatten_nil, List.nil_append, parseStrBody.eq_def]
    simp
  | cons c s ih =>
    intro rest
    simp only [List.map_cons, List.flatten_cons, List.append_assoc]
    exact parseStrBody_escapeChar (ih rest)

/-! Values in the image of Python: objects of an actual Python value never
carry a duplicated key, because they come from dicts. -/

/-- Whether the member keys are pairwise distinct. -/
def keysDupFree : List (List Char × Json) → Bool
  | [] => true
  | (k, _) :: t => !(t.map Prod.fst).contains k && keysDupFree t

mutual
/-- A value every JSON library can exchange with Python: all object member
lists have pairwise distinct keys (dicts cannot hold a key twice). -/
def goodJson : Json → Bool
  | .null => true
  | .bool _ => true
  | .num _ => true
  | .str _ => true
  | .arr es => goodElems es
  | .obj ms => keysDupFree ms && goodMembers ms

/-- All array elements are good. -/
def goodElems : List Json → Bool
  | [] => true
  | e :: es => goodJson e && goodElems es

/-- All member values are good. -/
def goodMembers : List (List Char × Json) → Bool
  | [] => true
  | (_, v) :: ms => goodJson v && goodMembers ms
end

theorem dictSet_append {m : List (List Char × Json)} {k : List Char} {v : Json}
    (h : k ∉ m.map Prod.fst) : dictSet m k v = m ++ [(k, v)] := by
  induction m with
  | nil => rfl
  | cons kv t ih =>
    obtain ⟨k', v'⟩ := kv
    simp only [List.map_cons, List.mem_cons, not_or] at h
    have hne : ¬ k' = k := fun he => h.1 he.symm
    rw [dictSet, if_neg hne, ih h.2]
    rfl

theorem pyDict_aux {ms : List (List Char × Json)} (hms : keysDupFree ms = true) :
    ∀ acc : List (List Char × Json),
      (∀ kv ∈ ms, kv.1 ∉ acc.map Prod.fst) →
      ms.foldl (fun m kv => dictSet m kv.1 kv.2) acc = acc ++ ms := by
  induction ms with
  | nil => intro acc _; simp
  | cons kv t ih =>
    intro acc hdisj
    obtain ⟨k, v⟩ := kv
    simp only [keysDupFree, Bool.and_eq_true, Bool.not_eq_true'] at hms
    have hknot : k ∉ t.map Prod.fst := by
      intro hkm
      have : (t.map Prod.fst).contains k = true := List.elem_eq_true_of_mem hkm
      rw [this] at hms
      exact absurd hms.1 (by simp)
    rw [List.foldl_cons, dictSet_append (hdisj (k, v) (List.mem_cons_self _ _))]
    rw [ih hms.2]
    · simp
    · intro kv' hkv'
      simp only [List.map_append, List.mem_append, List.map_cons, List.map_nil,
        List.mem_cons, List.not_mem_nil, not_or]
      refine ⟨hdisj kv' (List.mem_cons_of_mem _ hkv'), ?_, fun h => h⟩
      intro he
      exact hknot (he ▸ List.mem_map_of_mem Prod.fst hkv')

theorem pyDict_dupFree {ms : List (List Char × Json)} (hms : keysDupFree ms = true) :
    pyDict ms = ms := by
  rw [pyDict, pyDict_aux hms [] (fun kv _ h => (List.not_mem_nil _ h))]
  rfl

/-! Head-character facts about rendered output, and one-step reductions of the
parser, feeding the main round-trip induction. -/

theorem isDigit_bounds {c : Char} (h : isDigit c = true) : 48 ≤ c.toNat ∧ c.toNat ≤ 57 := by
  simp only [isDigit, Bool.and_eq_true, decide_eq_true_eq] at h
  exact h

theorem isWs_cases {c : Char} (h : isWs c = true) :
    c = ' ' ∨ c = '\t' ∨ c = '\n' ∨ c = '\r' := by
  simp only [isWs, Bool.or_eq_true, beq_iff_eq] at h
  tauto

theorem isDigit_not_ws {c : Char} (h : isDigit c = true) : isWs c = false := by
  by_contra hx
  rw [Bool.not_eq_false] at hx
  rcases isWs_cases hx with rfl | rfl | rfl | rfl <;> exact absurd h (by decide)

theorem isDigit_ne_of {c d : Char} (h : isDigit c = true) (hd : isDigit d = false) :
    c ≠ d := by
  intro he
  subst he
  rw [h] at hd
  cases hd

theorem skipWs_cons {c : Char} {x : List Char} (h : isWs c = false) :
    skipWs (c :: x) = c :: x := by
  simp [skipWs, h]

theorem skipWs_space (x : List Char) : skipWs (' ' :: x) = skipWs x := by
  simp [skipWs, isWs]

/-- The first character a rendered value emits: never whitespace, never a
closing bracket or brace. -/
theorem dumps_head (v : Json) :
    ∃ c t, dumps v = c :: t ∧ isWs c = false ∧ c ≠ ']' ∧ c ≠ '}' := by
  cases v with
  | null => refine ⟨'n', _, rfl, ?_, ?_, ?_⟩ <;> decide
  | bool b =>
    cases b with
    | true => refine ⟨'t', _, rfl, ?_, ?_, ?_⟩ <;> decide
    | false => refine ⟨'f', _, rfl, ?_, ?_, ?_⟩ <;> decide
  | str s => refine ⟨'"', _, rfl, ?_, ?_, ?_⟩ <;> decide
  | arr es => refine ⟨'[', _, rfl, ?_, ?_, ?_⟩ <;> decide
  | obj ms => refine ⟨'{', _, rfl, ?_, ?_, ?_⟩ <;> decide
  | num n =>
    by_cases hn : n < 0
    · refine ⟨'-', natChars n.natAbs, ?_, by decide, by decide, by decide⟩
      simp [dumps, intChars, hn]
    · by_cases h0 : n.natAbs = 0
      · refine ⟨'0', [], ?_, by decide, by decide, by decide⟩
        rw [show dumps (.num n) = natChars n.natAbs from by simp [dumps, intChars, hn], h0]
        rw [natChars_small (by omega)]
        rfl
      · obtain ⟨c, t, hct, hd, -⟩ := natChars_head h0
        refine ⟨c, t, ?_, isDigit_not_ws hd, isDigit_ne_of hd (by decide),
          isDigit_ne_of hd (by decide)⟩
        rw [show dumps (.num n) = natChars n.natAbs from by simp [dumps, intChars, hn], hct]

/-- The head of a rendered number token, with everything the scanner's
dispatch needs to fall through to the number branch. -/
theorem intChars_head (i : Int) :
    ∃ c t, intChars i = c :: t ∧ isWs c = false ∧ c ≠ '"' ∧ c ≠ '{' ∧ c ≠ '[' ∧
      c ≠ 'n' ∧ c ≠ 't' ∧ c ≠ 'f' := by
  by_cases hi : i < 0
  · exact ⟨'-', natChars i.natAbs, by simp [intChars, hi], by decide, by decide, by decide,
      by decide, by decide, by decide, by decide⟩
  · by_cases h0 : i.natAbs = 0
    · refine ⟨'0', [], ?_, by decide, by decide, by decide, by decide, by decide,
        by decide, by decide⟩
      rw [intChars, if_neg hi, h0, natChars_small (by omega)]
      rfl
    · obtain ⟨c, t, hct, hd, -⟩ := natChars_head h0
      exact ⟨c, t, by rw [intChars, if_neg hi, hct], isDigit_not_ws hd,
        isDigit_ne_of hd (by decide), isDigit_ne_of hd (by decide),
        isDigit_ne_of hd (by decide), isDigit_ne_of hd (by decide),
        isDigit_ne_of hd (by decide), isDigit_ne_of hd (by decide)⟩

/-- A rendered element list begins with its first element's first character. -/
theorem dumpsElems_cons_eq (e : Json) (es : List Json) :
    ∃ X, dumpsElems (e :: es) = dumps e ++ X := by
  cases es with
  | nil => exact ⟨[']'], rfl⟩
  | cons e2 es => exact ⟨',' :: ' ' :: dumpsElems (e2 :: es), rfl⟩

theorem skipWs_dumps (v : Json) (x : List Char) :
    skipWs (dumps v ++ x) = dumps v ++ x := by
  obtain ⟨c, t, hct, hws, -, -⟩ := dumps_head v
  rw [hct, List.cons_append, skipWs_cons hws]

theorem skipWs_dumpsElems (e : Json) (es : List Json) (x : List Char) :
    skipWs (dumpsElems (e :: es) ++ x) = dumpsElems (e :: es) ++ x := by
  obtain ⟨X, hX⟩ := dumpsElems_cons_eq e es
  rw [hX, List.append_assoc, skipWs_dumps]

/-- One-step reduction of `parseVal` in the number branch: a head that is no
string, container, or keyword start falls through to the number token. -/
theorem parseVal_to_numTok {c : Char} (f : Nat) (r : List Char)
    (hws : isWs c = false) (h1 : c ≠ '"') (h2 : c ≠ '{') (h3 : c ≠ '[')
    (h4 : c ≠ 'n') (h5 : c ≠ 't') (h6 : c ≠ 'f') :
    parseVal (f + 1) (c :: r)
      = (match parseNumTok (c :: r) with
         | some (n, r') => some (.num n, r')
         | none => none) := by
  have hstep : parseVal (f + 1) (c :: r)
      = (match skipWs (c :: r) with
         | [] => none
         | c :: r =>
           if c = '"' then
             match parseStrBody r with
             | some (s, r') => some (.str s, r')
             | none => none
           else if c = '{' then
             match skipWs r with
             | [] => none
             | c' :: r' =>
               if c' = '}' then some (.obj [], r')
               else
                 match parseMembers f (c' :: r') with
                 | some (ms, r'') => some (.obj (pyDict ms), r'')
                 | none => none
           else if c = '[' then
             match skipWs r with
             | [] => none
             | c' :: r' =>
               if c' = ']' then some (.arr [], r')
               else
                 match parseElems f (c' :: r') with
                 | some (es, r'') => some (.arr es, r'')
                 | none => none
           else if c = 'n' then
             match r with
             | 'u' :: 'l' :: 'l' :: r' => some (.null, r')
             | _ => none
           else if c = 't' then
             match r with
             | 'r' :: 'u' :: 'e' :: r' => some (.bool true, r')
             | _ => none
           else if c = 'f' then
             match r with
             | 'a' :: 'l' :: 's' :: 'e' :: r' => some (.bool false, r')
             | _ => none
           else
             match parseNumTok (c :: r) with
             | some (n, r') => some (.num n, r')
             | none => none) := rfl
  rw [hstep, skipWs_cons hws]
  simp only [if_neg h1, if_neg h2, if_neg h3, if_neg h4, if_neg h5, if_neg h6]

/-- One-step reduction of `parseVal` after an opening quote. -/
theorem parseVal_quote (f : Nat) (X : List Char) :
    parseVal (f + 1) ('"' :: X)
      = (match parseStrBody X with
         | some (s, r') => some (.str s, r')
         | none => none) := rfl

/-- One-step reduction of `parseVal` after an opening bracket. -/
theorem parseVal_bracket (f : Nat) (X : List Char) :
    parseVal (f + 1) ('[' :: X)
      = (match skipWs X with
         | [] => none
         | c' :: r' =>
           if c' = ']' then some (.arr [], r')
           else
             match parseElems f (c' :: r') with
             | some (es, r'') => some (.arr es, r'')
             | none => none) := rfl

/-- One-step reduction of `parseVal` after an opening brace. -/
theorem parseVal_brace (f : Nat) (X : List Char) :
    parseVal (f + 1) ('{' :: X)
      = (match skipWs X with
         | [] => none
         | c' :: r' =>
           if c' = '}' then some (.obj [], r')
           else
             match parseMembers f (c' :: r') with
             | some (ms, r'') => some (.obj (pyDict ms), r'')
             | none => none) := rfl

/-- One-step reduction of `parseElems` at successor fuel. -/
theorem parseElems_step (f : Nat) (cs : List Char) :
    parseElems (f + 1) cs
      = (match parseVal f cs with
         | none => none
         | some (v, r) =>
           match skipWs r with
           | [] => none
           | c :: r' =>
             if c = ',' then
               match parseElems f (skipWs r') with
               | some (vs, r'') => some (v :: vs, r'')
               | none => none
             else if c = ']' then some ([v], r')
             else none) := rfl

/-- One-step reduction of `parseMembers` at successor fuel. -/
theorem parseMembers_step (f : Nat) (cs : List Char) :
    parseMembers (f + 1) cs
      = (match skipWs cs with
         | [] => none
         | c :: r =>
           if c = '"' then
             match parseStrBody r with
             | none => none
             | some (k, r1) =>
               match skipWs r1 with
               | [] => none
               | c2 :: r2 =>
                 if c2 = ':' then
                   match parseVal f (skipWs r2) with
                   | none => none
                   | some (v, r3) =>
                     match skipWs r3 with
                     | [] => none
                     | c3 :: r4 =>
                       if c3 = ',' then
                         match parseMembers f (skipWs r4) with
                         | some (ms, r5) => some ((k, v) :: ms, r5)
                         | none => none
                       else if c3 = '}' then some ([(k, v)], r4)
                       else none
                 else none
           else none) := rfl

/-- A rendered member list begins with its first key's string literal. -/
theorem dumpsMembers_cons_eq (k : List Char) (v : Json) (ms : List (List Char × Json)) :
    ∃ Z, dumpsMembers ((k, v) :: ms) = strChars k ++ Z := by
  cases ms with
  | nil => exact ⟨':' :: ' ' :: (dumps v ++ ['}']), rfl⟩
  | cons m2 ms =>
    obtain ⟨k2, v2⟩ := m2
    exact ⟨':' :: ' ' :: (dumps v ++ ',' :: ' ' :: dumpsMembers ((k2, v2) :: ms)), rfl⟩

mutual
/-- Round-trip of one value through the scanner: parsing rendered output
recovers the value, for any remainder that cannot extend a number token. -/
theorem rt_val : ∀ (v : Json) (f : Nat) (rest : List Char),
    goodJson v = true → (dumps v).length < f → numDelim rest = true →
    parseVal f (dumps v ++ rest) = some (v, rest)
  | .null, f, rest, _, hf, _ => by
    cases f with
    | zero => exact absurd hf (Nat.not_lt_zero _)
    | succ f => rfl
  | .bool true, f, rest, _, hf, _ => by
    cases f with
    | zero => exact absurd hf (Nat.not_lt_zero _)
    | succ f => rfl
  | .bool false, f, rest, _, hf, _ => by
    cases f with
    | zero => exact absurd hf (Nat.not_lt_zero _)
    | succ f => rfl
  | .num n, f, rest, _, hf, hr => by
    cases f with
    | zero => exact absurd hf (Nat.not_lt_zero _)
    | succ f =>
      obtain ⟨c, t, hct, hws, h1, h2, h3, h4, h5, h6⟩ := intChars_head n
      have harg : dumps (.num n) ++ rest = c :: (t ++ rest) := by
        rw [show dumps (.num n) = intChars n from rfl, hct]
        rfl
      rw [harg, parseVal_to_numTok f _ hws h1 h2 h3 h4 h5 h6,
        show c :: (t ++ rest) = intChars n ++ rest from by rw [hct]; rfl,
        parseNumTok_intChars hr]
  | .str s, f, rest, _, hf, _ => by
    cases f with
    | zero => exact absurd hf (Nat.not_lt_zero _)
    | succ f =>
      have harg : dumps (.str s) ++ rest
          = '"' :: ((s.map escapeChar).flatten ++ '"' :: rest) := by
        simp [dumps, strChars]
      rw [harg, parseVal_quote, parseStrBody_strBody]
  | .arr [], f, rest, _, hf, _ => by
    cases f with
    | zero => exact absurd hf (Nat.not_lt_zero _)
    | succ f => rfl
  | .arr (e :: es), f, rest, hg, hf, _ => by
    cases f with
    | zero => exact absurd hf (Nat.not_lt_zero _)
    | succ f =>
      have hg' : goodElems (e :: es) = true := by simpa [goodJson] using hg
      have hfe : (dumpsElems (e :: es)).length < f := by
        have : (dumps (.arr (e :: es))).length = (dumpsElems (e :: es)).length + 1 := by
          simp [dumps]
        omega
      have harg : dumps (.arr (e :: es)) ++ rest = '[' :: (dumpsElems (e :: es) ++ rest) := by
        simp [dumps]
      rw [harg, parseVal_bracket, skipWs_dumpsElems]
      obtain ⟨c0, t0, hct, hws0, hne0, -⟩ := dumps_head e
      obtain ⟨X, hX⟩ := dumpsElems_cons_eq e es
      have hshape : dumpsElems (e :: es) ++ rest = c0 :: (t0 ++ (X ++ rest)) := by
        rw [hX, hct]
        simp
      rw [hshape]
      simp only [if_neg hne0]
      rw [← hshape, rt_elems e es f rest hg' hfe]
  | .obj [], f, rest, _, hf, _ => by
    cases f with
    | zero => exact absurd hf (Nat.not_lt_zero _)
    | succ f => rfl
  | .obj ((k, v) :: ms), f, rest, hg, hf, _ => by
    cases f with
    | zero => exact absurd hf (Nat.not_lt_zero _)
    | succ f =>
      have hg1 : keysDupFree ((k, v) :: ms) = true := by
        have : goodJson (.obj ((k, v) :: ms))
            = (keysDupFree ((k, v) :: ms) && goodMembers ((k, v) :: ms)) := rfl
        rw [this, Bool.and_eq_true] at hg
        exact hg.1
      have hg2 : goodMembers ((k, v) :: ms) = true := by
        have : goodJson (.obj ((k, v) :: ms))
            = (keysDupFree ((k, v) :: ms) && goodMembers ((k, v) :: ms)) := rfl
        rw [this, Bool.and_eq_true] at hg
        exact hg.2
      have hfm : (dumpsMembers ((k, v) :: ms)).length < f := by
        have : (dumps (.obj ((k, v) :: ms))).length
            = (dumpsMembers ((k, v) :: ms)).length + 1 := by
          simp [dumps]
        omega
      have harg : dumps (.obj ((k, v) :: ms)) ++ rest
          = '{' :: (dumpsMembers ((k, v) :: ms) ++ rest) := by
        simp [dumps]
      obtain ⟨Z, hZ⟩ := dumpsMembers_cons_eq k v ms
      have hshape : dumpsMembers ((k, v) :: ms) ++ rest
          = '"' :: (((k.map escapeChar).flatten ++ ['"']) ++ (Z ++ rest)) := by
        rw [hZ, strChars]
        simp
      rw [harg, parseVal_brace, hshape, skipWs_cons (by decide : isWs '"' = false)]
      simp only [if_neg (by decide : ¬ ('"' : Char) = '}')]
      rw [← hshape, rt_members k v ms f rest hg2 hfm]
      show some (Json.obj (pyDict ((k, v) :: ms)), rest) = some (Json.obj ((k, v) :: ms), rest)
      rw [pyDict_dupFree hg1]
  termination_by v => sizeOf v

/-- Round-trip of a nonempty element list including its closing bracket. -/
theorem rt_elems : ∀ (e : Json) (es : List Json) (f : Nat) (rest : List Char),
    goodElems (e :: es) = true → (dumpsElems (e :: es)).length < f →
    parseElems f (dumpsElems (e :: es) ++ rest) = some (e :: es, rest)
  | e, [], f, rest, hg, hf => by
    cases f with
    | zero => exact absurd hf (Nat.not_lt_zero _)
    | succ f =>
      have hge : goodJson e = true := by simpa [goodElems] using hg
      have hfe : (dumps e).length < f := by
        have : (dumpsElems [e]).length = (dumps e).length + 1 := by simp [dumpsElems]
        omega
      have harg : dumpsElems [e] ++ rest = dumps e ++ (']' :: rest) := by
        simp [dumpsElems]
      rw [harg, parseElems_step,
        rt_val e f (']' :: rest) hge hfe (show numDelim (']' :: rest) = true from rfl)]
      rfl
  | e, e2 :: es, f, rest, hg, hf => by
    cases f with
    | zero => exact absurd hf (Nat.not_lt_zero _)
    | succ f =>
      have hge : goodJson e = true := by
        have : goodElems (e :: e2 :: es) = (goodJson e && goodElems (e2 :: es)) := rfl
        rw [this, Bool.and_eq_true] at hg
        exact hg.1
      have hgt : goodElems (e2 :: es) = true := by
        have : goodElems (e :: e2 :: es) = (goodJson e && goodElems (e2 :: es)) := rfl
        rw [this, Bool.and_eq_true] at hg
        exact hg.2
      have hlen : (dumpsElems (e :: e2 :: es)).length
          = (dumps e).length + 2 + (dumpsElems (e2 :: es)).length := by
        simp [dumpsElems]
        omega
      have hfe : (dumps e).length < f := by omega
      have hft : (dumpsElems (e2 :: es)).length < f := by omega
      have harg : dumpsElems (e :: e2 :: es) ++ rest
          = dumps e ++ (',' :: (' ' :: (dumpsElems (e2 :: es) ++ rest))) := by
        simp [dumpsElems]
      rw [harg, parseElems_step,
        rt_val e f (',' :: (' ' :: (dumpsElems (e2 :: es) ++ rest))) hge hfe
          (show numDelim (',' :: (' ' :: (dumpsElems (e2 :: es) ++ rest))) = true from rfl)]
      show (match parseElems f (skipWs (' ' :: (dumpsElems (e2 :: es) ++ rest))) with
            | some (vs, r'') => some (e :: vs, r'')
            | none => none) = some (e :: e2 :: es, rest)
      rw [skipWs_space, skipWs_dumpsElems, rt_elems e2 es f rest hgt hft]
  termination_by e es => sizeOf e + sizeOf es

/-- Round-trip of a nonempty member list including its closing brace. -/
theorem rt_members : ∀ (k : List Char) (v : Json) (ms : List (List Char × Json))
    (f : Nat) (rest : List Char),
    goodMembers ((k, v) :: ms) = true → (dumpsMembers ((k, v) :: ms)).length < f →
    parseMembers f (dumpsMembers ((k, v) :: ms) ++ rest) = some ((k, v) :: ms, rest)
  | k, v, [], f, rest, hg, hf => by
    cases f with
    | zero => exact absurd hf (Nat.not_lt_zero _)
    | succ f =>
      have hgv : goodJson v = true := by simpa [goodMembers] using hg
      have hfv : (dumps v).length < f := by
        have : (dumpsMembers [(k, v)]).length
            = (strChars k).length + 2 + ((dumps v).length + 1) := by
          simp [dumpsMembers]
          omega
        omega
      have harg : dumpsMembers [(k, v)] ++ rest
          = '"' :: ((k.map escapeChar).flatten
              ++ '"' :: (':' :: (' ' :: (dumps v ++ ('}' :: rest))))) := by
        simp [dumpsMembers, strChars]
      rw [harg, parseMembers_step, skipWs_cons (by decide : isWs '"' = false)]
      show (match parseStrBody ((k.map escapeChar).flatten
              ++ '"' :: (':' :: (' ' :: (dumps v ++ ('}' :: rest))))) with
            | none => none
            | some (k, r1) =>
              match skipWs r1 with
              | [] => none
              | c2 :: r2 =>
                if c2 = ':' then
                  match parseVal f (skipWs r2) with
                  | none => none
                  | some (v, r3) =>
                    match skipWs r3 with
                    | [] => none
                    | c3 :: r4 =>
                      if c3 = ',' then
                        match parseMembers f (skipWs r4) with
                        | some (ms, r5) => some ((k, v) :: ms, r5)
                        | none => none
                      else if c3 = '}' then some ([(k, v)], r4)
                      else none
                else none) = some ([(k, v)], rest)
      rw [parseStrBody_strBody]
      show (match parseVal f (skipWs (' ' :: (dumps v ++ ('}' :: rest)))) with
            | none => none
            | some (v2, r3) =>
              match skipWs r3 with
              | [] => none
              | c3 :: r4 =>
                if c3 = ',' then
                  match parseMembers f (skipWs r4) with
                  | some (ms, r5) => some ((k, v2) :: ms, r5)
                  | none => none
                else if c3 = '}' then some ([(k, v2)], r4)
                else none) = some ([(k, v)], rest)
      rw [skipWs_space, skipWs_dumps,
        rt_val v f ('}' :: rest) hgv hfv (show numDelim ('}' :: rest) = true from rfl)]
      rfl
  | k, v, (k2, v2) :: ms, f, rest, hg, hf => by
    cases f with
    | zero => exact absurd hf (Nat.not_lt_zero _)
    | succ f =>
      have hgv : goodJson v = true := by
        have : goodMembers ((k, v) :: (k2, v2) :: ms)
            = (goodJson v && goodMembers ((k2, v2) :: ms)) := rfl
        rw [this, Bool.and_eq_true] at hg
        exact hg.1
      have hgt : goodMembers ((k2, v2) :: ms) = true := by
        have : goodMembers ((k, v) :: (k2, v2) :: ms)
            = (goodJson v && goodMembers ((k2, v2) :: ms)) := rfl
        rw [this, Bool.and_eq_true] at hg
        exact hg.2
      have hlen : (dumpsMembers ((k, v) :: (k2, v2) :: ms)).length
          = (strChars k).length + 2 + (dumps v).length + 2
              + (dumpsMembers ((k2, v2) :: ms)).length := by
        simp [dumpsMembers]
        omega
      have hfv : (dumps v).length < f := by omega
      have hft : (dumpsMembers ((k2, v2) :: ms)).length < f := by omega
      have harg : dumpsMembers ((k, v) :: (k2, v2) :: ms) ++ rest
          = '"' :: ((k.map escapeChar).flatten
              ++ '"' :: (':' :: (' ' :: (dumps v
                ++ (',' :: (' ' :: (dumpsMembers ((k2, v2) :: ms) ++ rest))))))) := by
        simp [dumpsMembers, strChars]
      obtain ⟨Z2, hZ2⟩ := dumpsMembers_cons_eq k2 v2 ms
      have hhead2 : skipWs (dumpsMembers ((k2, v2) :: ms) ++ rest)
          = dumpsMembers ((k2, v2) :: ms) ++ rest := by
        rw [hZ2, strChars]
        simp only [List.cons_append, List.append_assoc]
        exact skipWs_cons (by decide)
      rw [harg, parseMembers_step, skipWs_cons (by decide : isWs '"' = false)]
      show (match parseStrBody ((k.map escapeChar).flatten
              ++ '"' :: (':' :: (' ' :: (dumps v
                ++ (',' :: (' ' :: (dumpsMembers ((k2, v2) :: ms) ++ rest))))))) with
            | none => none
            | some (k, r1) =>
              match skipWs r1 with
              | [] => none
              | c2 :: r2 =>
                if c2 = ':' then
                  match parseVal f (skipWs r2) with
                  | none => none
                  | some (v, r3) =>
                    match skipWs r3 with
                    | [] => none
                    | c3 :: r4 =>
                      if c3 = ',' then
                        match parseMembers f (skipWs r4) with
                        | some (ms, r5) => some ((k, v) :: ms, r5)
                        | none => none
                      else if c3 = '}' then some ([(k, v)], r4)
                      else none
                else none) = some ((k, v) :: (k2, v2) :: ms, rest)
      rw [parseStrBody_strBody]
      show (match parseVal f (skipWs (' ' :: (dumps v
              ++ (',' :: (' ' :: (dumpsMembers ((k2, v2) :: ms) ++ rest)))))) with
            | none => none
            | some (v2, r3) =>
              match skipWs r3 with
              | [] => none
              | c3 :: r4 =>
                if c3 = ',' then
                  match parseMembers f (skipWs r4) with
                  | some (ms, r5) => some ((k, v2) :: ms, r5)
                  | none => none
                else if c3 = '}' then some ([(k, v2)], r4)
                else none) = some ((k, v) :: (k2, v2) :: ms, rest)
      rw [skipWs_space, skipWs_dumps,
        rt_val v f (',' :: (' ' :: (dumpsMembers ((k2, v2) :: ms) ++ rest))) hgv hfv
          (show numDelim (',' :: (' ' :: (dumpsMembers ((k2, v2) :: ms) ++ rest))) = true
            from rfl)]
      show (match parseMembers f (skipWs (' ' :: (dumpsMembers ((k2, v2) :: ms) ++ rest))) with
            | some (ms, r5) => some ((k, v) :: ms, r5)
            | none => none) = some ((k, v) :: (k2, v2) :: ms, rest)
      rw [skipWs_space, hhead2, rt_members k2 v2 ms f rest hgt hft]
  termination_by k v ms => sizeOf v + sizeOf ms
end

/-- Codec round-trip at the document level: `json.loads` inverts `json.dumps`
on every value in Python's image. -/
theorem loads_dumps {v : Json} (hg : goodJson v = true) : loads (dumps v) = some v := by
  rw [loads]
  have h := rt_val v ((dumps v).length + 1) [] hg (by omega) rfl
  rw [List.append_nil] at h
  rw [h]
  rfl

/-! UTF-8, as `str.encode('utf-8')` and `bytes.decode('utf-8')` apply it to the
payload.  Characters are unicode scalar values, so encoding always succeeds;
decoding validates lead and continuation bytes, overlong forms, surrogates and
the 0x10FFFF ceiling exactly as CPython's strict codec. -/

/-- UTF-8 bytes of one scalar value. -/
def utf8EncodeChar (c : Char) : List Nat :=
  let n := c.toNat
  if n < 0x80 then [n]
  else if n < 0x800 then [0xC0 + n / 64, 0x80 + n % 64]
  else if n < 0x10000 then [0xE0 + n / 4096, 0x80 + n / 64 % 64, 0x80 + n % 64]
  else [0xF0 + n / 0x40000, 0x80 + n / 4096 % 64, 0x80 + n / 64 % 64, 0x80 + n % 64]

/-- UTF-8 bytes of a string (`str.encode('utf-8')`). -/
def utf8Encode (cs : List Char) : List Nat :=
  (cs.map utf8EncodeChar).flatten

/-- Whether a byte is a UTF-8 continuation byte. -/
def isCont (b : Nat) : Bool := 0x80 ≤ b && b < 0xC0

/-- One step of strict UTF-8 decoding: the scalar value encoded at the head of
the buffer and the remaining bytes, or `none` on a malformed sequence (stray
continuation, bad lead byte, truncated sequence, overlong form, surrogate, or
a value beyond 0x10FFFF — the conditions CPython's strict codec rejects). -/
def utf8DecodeOne : List Nat → Option (Nat × List Nat)
  | [] => none
  | b :: rest =>
    if b < 0x80 then some (b, rest)
    else if b < 0xC2 then none
    else if b < 0xE0 then
      match rest with
      | b1 :: r => if isCont b1 then some ((b - 0xC0) * 64 + (b1 - 0x80), r) else none
      | _ => none
    else if b < 0xF0 then
      match rest with
      | b1 :: b2 :: r =>
        if isCont b1 && isCont b2 then
          let n := (b - 0xE0) * 4096 + (b1 - 0x80) * 64 + (b2 - 0x80)
          if n < 0x800 ∨ (0xD800 ≤ n ∧ n < 0xE000) then none
          else some (n, r)
        else none
      | _ => none
    else if b < 0xF5 then
      match rest with
      | b1 :: b2 :: b3 :: r =>
        if isCont b1 && isCont b2 && isCont b3 then
          let n := (b - 0xF0) * 0x40000 + (b1 - 0x80) * 4096 + (b2 - 0x80) * 64 + (b3 - 0x80)
          if n < 0x10000 ∨ 0x110000 ≤ n then none
          else some (n, r)
        else none
      | _ => none
    else none

/-- The decoding loop over the buffer; every step consumes at least one byte,
so `utf8Decode` below always supplies sufficient fuel. -/
def utf8DecodeAux : Nat → List Nat → Option (List Char)
  | 0, _ => none
  | f + 1, bs =>
    if bs.isEmpty then some []
    else
      match utf8DecodeOne bs with
      | none => none
      | some (n, r) =>
        match utf8DecodeAux f r with
        | none => none
        | some cs => some (Char.ofNat n :: cs)

/-- Strict UTF-8 decoding (`bytes.decode('utf-8')`): `none` is the
`UnicodeDecodeError` case. -/
def utf8Decode (bs : List Nat) : Option (List Char) :=
  utf8DecodeAux (bs.length + 1) bs

theorem utf8DecodeOne_encodeChar (c : Char) (X : List Nat) :
    utf8DecodeOne (utf8EncodeChar c ++ X) = some (c.toNat, X) := by
  have hval : c.toNat < 0xD800 ∨ (0xDFFF < c.toNat ∧ c.toNat < 0x110000) := c.valid
  rw [utf8EncodeChar]
  by_cases h1 : c.toNat < 0x80
  · simp only [if_pos h1, List.cons_append, List.nil_append]
    rw [utf8DecodeOne.eq_def]
    simp [h1]
  by_cases h2 : c.toNat < 0x800
  · simp only [if_neg h1, if_pos h2, List.cons_append, List.nil_append]
    rw [utf8DecodeOne.eq_def]
    have hb : ¬ (0xC0 + c.toNat / 64 < 0x80) := by omega
    have hb2 : ¬ (0xC0 + c.toNat / 64 < 0xC2) := by omega
    have hb3 : 0xC0 + c.toNat / 64 < 0xE0 := by omega
    have hcont : isCont (0x80 + c.toNat % 64) = true := by
      simp only [isCont, Bool.and_eq_true, decide_eq_true_eq]
      omega
    simp only [if_neg hb, if_neg hb2, if_pos hb3, hcont, if_true]
    have harith : (0xC0 + c.toNat / 64 - 0xC0) * 64 + (0x80 + c.toNat % 64 - 0x80)
        = c.toNat := by omega
    rw [harith]
  by_cases h3 : c.toNat < 0x10000
  · simp only [if_neg h1, if_neg h2, if_pos h3, List.cons_append, List.nil_append]
    rw [utf8DecodeOne.eq_def]
    have hb : ¬ (0xE0 + c.toNat / 4096 < 0x80) := by omega
    have hb2 : ¬ (0xE0 + c.toNat / 4096 < 0xC2) := by omega
    have hb3 : ¬ (0xE0 + c.toNat / 4096 < 0xE0) := by omega
    have hb4 : 0xE0 + c.toNat / 4096 < 0xF0 := by omega
    have hc1 : isCont (0x80 + c.toNat / 64 % 64) = true := by
      simp only [isCont, Bool.and_eq_true, decide_eq_true_eq]
      omega
    have hc2 : isCont (0x80 + c.toNat % 64) = true := by
      simp only [isCont, Bool.and_eq_true, decide_eq_true_eq]
      omega
    simp only [if_neg hb, if_neg hb2, if_neg hb3, if_pos hb4, hc1, hc2, Bool.and_self,
      if_true]
    have harith : (0xE0 + c.toNat / 4096 - 0xE0) * 4096 + (0x80 + c.toNat / 64 % 64 - 0x80) * 64
        + (0x80 + c.toNat % 64 - 0x80) = c.toNat := by omega
    rw [harith]
    have hno : ¬ (c.toNat < 0x800 ∨ (0xD800 ≤ c.toNat ∧ c.toNat < 0xE000)) := by
      rcases hval with h | h
      · omega
      · omega
    simp only [if_neg hno]
  · simp only [if_neg h1, if_neg h2, if_neg h3, List.cons_append, List.nil_append]
    rw [utf8DecodeOne.eq_def]
    have hmax : c.toNat < 0x110000 := by
      rcases hval with h | h
      · omega
      · omega
    have hb : ¬ (0xF0 + c.toNat / 0x40000 < 0x80) := by omega
    have hb2 : ¬ (0xF0 + c.toNat / 0x40000 < 0xC2) := by omega
    have hb3 : ¬ (0xF0 + c.toNat / 0x40000 < 0xE0) := by omega
    have hb4 : ¬ (0xF0 + c.toNat / 0x40000 < 0xF0) := by omega
    have hb5 : 0xF0 + c.toNat / 0x40000 < 0xF5 := by omega
    have hc1 : isCont (0x80 + c.toNat / 4096 % 64) = true := by
      simp only [isCont, Bool.and_eq_true, decide_eq_true_eq]
      omega
    have hc2 : isCont (0x80 + c.toNat / 64 % 64) = true := by
      simp only [isCont, Bool.and_eq_true, decide_eq_true_eq]
      omega
    have hc3 : isCont (0x80 + c.toNat % 64) = true := by
      simp only [isCont, Bool.and_eq_true, decide_eq_true_eq]
      omega
    simp only [if_neg hb, if_neg hb2, if_neg hb3, if_neg hb4, if_pos hb5, hc1, hc2, hc3,
      Bool.and_self, if_true]
    have harith : (0xF0 + c.toNat / 0x40000 - 0xF0) * 0x40000
        + (0x80 + c.toNat / 4096 % 64 - 0x80) * 4096
        + (0x80 + c.toNat / 64 % 64 - 0x80) * 64
        + (0x80 + c.toNat % 64 - 0x80) = c.toNat := by omega
    rw [harith]
    have hno : ¬ (c.toNat < 0x10000 ∨ 0x110000 ≤ c.toNat) := by omega
    simp only [if_neg hno]

theorem utf8EncodeChar_pos (c : Char) : 1 ≤ (utf8EncodeChar c).length := by
  rw [utf8EncodeChar]
  split_ifs <;> simp

theorem utf8DecodeAux_encode :
    ∀ (cs : List Char) (f : Nat), (utf8Encode cs).length < f →
      utf8DecodeAux f (utf8Encode cs) = some cs := by
  intro cs
  induction cs with
  | nil =>
    intro f hf
    cases f with
    | zero => exact absurd hf (Nat.not_lt_zero _)
    | succ f => rfl
  | cons c cs ih =>
    intro f hf
    cases f with
    | zero => exact absurd hf (Nat.not_lt_zero _)
    | succ f =>
      have hlen : (utf8Encode (c :: cs)).length
          = (utf8EncodeChar c).length + (utf8Encode cs).length := by
        simp [utf8Encode]
      have hpos := utf8EncodeChar_pos c
      have hne : (utf8Encode (c :: cs)).isEmpty = false := by
        rw [List.isEmpty_eq_false_iff_exists_mem]
        cases hx : utf8Encode (c :: cs) with
        | nil => rw [hx] at hlen; simp at hlen; omega
        | cons y ys => exact ⟨y, by simp⟩
      have hone : utf8DecodeOne (utf8Encode (c :: cs)) = some (c.toNat, utf8Encode cs) := by
        rw [show utf8Encode (c :: cs) = utf8EncodeChar c ++ utf8Encode cs from by
          simp [utf8Encode]]
        exact utf8DecodeOne_encodeChar c _
      rw [utf8DecodeAux, if_neg (by simp [hne]), hone]
      show (match utf8DecodeAux f (utf8Encode cs) with
            | none => none
            | some cs2 => some (Char.ofNat c.toNat :: cs2)) = some (c :: cs)
      rw [ih f (by omega), Char.ofNat_toNat]

/-- UTF-8 round-trip: strict decoding inverts encoding on every string. -/
theorem utf8Decode_encode (cs : List Char) : utf8Decode (utf8Encode cs) = some cs :=
  utf8DecodeAux_encode cs _ (by omega)

/-! CRC-32 as `zlib.crc32(payload) & 0xFFFFFFFF` computes it: the reflected
algorithm with polynomial 0xEDB88320, initial and final value 0xFFFFFFFF,
processing one byte as eight shift-and-conditionally-xor rounds. -/

/-- The reflected CRC-32 (IEEE) polynomial. -/
def crcPoly : Nat := 0xEDB88320

/-- One bit round of the reflected CRC: shift right, xor the polynomial when
the bit shifted out was set. -/
def crcRound (s : Nat) : Nat := (s >>> 1) ^^^ (if s % 2 = 1 then crcPoly else 0)

/-- The CRC state after absorbing the bytes of `p`, starting from `s`. -/
def crcUpdate (s : Nat) (p : List Nat) : Nat :=
  p.foldl (fun st b => crcRound^[8] (st ^^^ b)) s

/-- The value of `zlib.crc32(p) & 0xFFFFFFFF`. -/
def crc32 (p : List Nat) : Nat := crcUpdate 0xFFFFFFFF p ^^^ 0xFFFFFFFF

theorem xor_mod_two (a b : Nat) : (a ^^^ b) % 2 = (a % 2 + b % 2) % 2 := by
  have ha := Nat.testBit_xor a b 0
  simp only [Nat.testBit_zero] at ha
  rcases Nat.mod_two_eq_zero_or_one a with h1 | h1 <;>
    rcases Nat.mod_two_eq_zero_or_one b with h2 | h2 <;>
      simp [h1, h2] at ha ⊢ <;> omega

theorem shiftRight_one_xor (a b : Nat) : (a ^^^ b) >>> 1 = (a >>> 1) ^^^ (b >>> 1) := by
  apply Nat.eq_of_testBit_eq
  intro i
  simp [Nat.testBit_shiftRight, Nat.testBit_xor]

theorem xor_left_comm (a b c : Nat) : a ^^^ (b ^^^ c) = b ^^^ (a ^^^ c) := by
  rw [← Nat.xor_assoc, Nat.xor_comm a b, Nat.xor_assoc]

/-- The bit round is linear over xor. -/
theorem crcRound_xor (a b : Nat) : crcRound (a ^^^ b) = crcRound a ^^^ crcRound b := by
  rw [crcRound, crcRound, crcRound, shiftRight_one_xor]
  have hm := xor_mod_two a b
  rcases Nat.mod_two_eq_zero_or_one a with h1 | h1 <;>
    rcases Nat.mod_two_eq_zero_or_one b with h2 | h2 <;>
      rw [h1, h2] at hm
  · rw [if_neg (by omega : ¬ (a ^^^ b) % 2 = 1), if_neg (by omega : ¬ a % 2 = 1),
      if_neg (by omega : ¬ b % 2 = 1)]
    simp [Nat.xor_zero]
  · rw [if_pos (by omega : (a ^^^ b) % 2 = 1), if_neg (by omega : ¬ a % 2 = 1),
      if_pos (by omega : b % 2 = 1)]
    simp [Nat.xor_zero, Nat.xor_assoc]
  · rw [if_pos (by omega : (a ^^^ b) % 2 = 1), if_pos (by omega : a % 2 = 1),
      if_neg (by omega : ¬ b % 2 = 1)]
    simp only [Nat.xor_zero]
    simp [Nat.xor_assoc, Nat.xor_comm, xor_left_comm]
  · rw [if_neg (by omega : ¬ (a ^^^ b) % 2 = 1), if_pos (by omega : a % 2 = 1),
      if_pos (by omega : b % 2 = 1)]
    simp only [Nat.xor_zero]
    simp only [Nat.xor_assoc, Nat.xor_comm, xor_left_comm, Nat.xor_self]
    rw [← Nat.xor_assoc, Nat.xor_self, Nat.zero_xor]

theorem crcRound_zero : crcRound 0 = 0 := rfl

theorem crcRound_lt {a : Nat} (h : a < 2 ^ 32) : crcRound a < 2 ^ 32 := by
  rw [crcRound]
  apply Nat.xor_lt_two_pow
  · rw [Nat.shiftRight_one]
    omega
  · split <;> simp [crcPoly]

/-- The inverse of the bit round on 32-bit states. -/
def crcInv (y : Nat) : Nat :=
  if y.testBit 31 then 2 * (y ^^^ crcPoly) + 1 else 2 * y

theorem crcInv_crcRound {d : Nat} (hd : d < 2 ^ 32) : crcInv (crcRound d) = d := by
  have hhalf : d >>> 1 < 2 ^ 31 := by
    rw [Nat.shiftRight_one]
    omega
  rcases Nat.mod_two_eq_zero_or_one d with h | h
  · rw [crcRound, if_neg (by omega), Nat.xor_zero, crcInv,
      if_neg (by rw [Nat.testBit_lt_two_pow hhalf]; exact Bool.false_ne_true),
      Nat.shiftRight_one]
    omega
  · rw [crcRound, if_pos h, crcInv]
    have ht : ((d >>> 1) ^^^ crcPoly).testBit 31 = true := by
      rw [Nat.testBit_xor, Nat.testBit_lt_two_pow hhalf]
      decide
    rw [if_pos ht, Nat.xor_assoc, Nat.xor_self, Nat.xor_zero, Nat.shiftRight_one]
    omega

theorem crcRound_inj {a b : Nat} (ha : a < 2 ^ 32) (hb : b < 2 ^ 32)
    (h : crcRound a = crcRound b) : a = b := by
  have := congrArg crcInv h
  rwa [crcInv_crcRound ha, crcInv_crcRound hb] at this

theorem crcRoundN_xor (n a b : Nat) :
    crcRound^[n] (a ^^^ b) = crcRound^[n] a ^^^ crcRound^[n] b := by
  induction n generalizing a b with
  | zero => rfl
  | succ n ih => rw [Function.iterate_succ_apply, Function.iterate_succ_apply,
      Function.iterate_succ_apply, crcRound_xor, ih]

theorem crcRoundN_zero (n : Nat) : crcRound^[n] 0 = 0 := by
  induction n with
  | zero => rfl
  | succ n ih => rw [Function.iterate_succ_apply, crcRound_zero, ih]

theorem crcRoundN_lt {a : Nat} (n : Nat) (h : a < 2 ^ 32) : crcRound^[n] a < 2 ^ 32 := by
  induction n generalizing a with
  | zero => exact h
  | succ n ih => rw [Function.iterate_succ_apply]; exact ih (crcRound_lt h)

/-- No number of bit rounds can annihilate a nonzero 32-bit difference. -/
theorem crcRoundN_ne_zero {a : Nat} (n : Nat) (ha : a < 2 ^ 32) (h0 : a ≠ 0) :
    crcRound^[n] a ≠ 0 := by
  induction n generalizing a with
  | zero => exact h0
  | succ n ih =>
    rw [Function.iterate_succ_apply]
    refine ih (crcRound_lt ha) ?_
    intro hz
    exact h0 (crcRound_inj ha (by omega) (hz.trans crcRound_zero.symm))

/-- A difference injected into the CRC state propagates linearly through the
remaining bytes. -/
theorem crcUpdate_xor (p : List Nat) : ∀ s d : Nat,
    crcUpdate (s ^^^ d) p = crcUpdate s p ^^^ crcRound^[8 * p.length] d := by
  induction p with
  | nil => intro s d; simp [crcUpdate]
  | cons b t ih =>
    intro s d
    rw [crcUpdate, List.foldl_cons, show s ^^^ d ^^^ b = (s ^^^ b) ^^^ d from by
      rw [Nat.xor_assoc, Nat.xor_comm d b, ← Nat.xor_assoc],
      crcRoundN_xor]
    rw [show (List.foldl (fun st b => crcRound^[8] (st ^^^ b))
        (crcRound^[8] (s ^^^ b) ^^^ crcRound^[8] d) t)
      = crcUpdate (crcRound^[8] (s ^^^ b) ^^^ crcRound^[8] d) t from rfl]
    rw [ih, show crcUpdate (crcRound^[8] (s ^^^ b)) t
        = crcUpdate s (b :: t) from rfl]
    rw [← Function.iterate_add_apply]
    have : 8 * t.length + 8 = 8 * (b :: t).length := by
      simp [List.length_cons]
      omega
    rw [this]

/-- Flipping one bit of one byte always changes the CRC-32 value. -/
theorem crc32_flip_ne {p : List Nat} {t k : Nat} (ht : t < p.length) (hk : k < 8) :
    crc32 (p.set t (p.get ⟨t, ht⟩ ^^^ 2 ^ k)) ≠ crc32 p := by
  set x := p.get ⟨t, ht⟩ with hx
  have hsplit : p = p.take t ++ x :: p.drop (t + 1) := by
    conv_lhs => rw [← List.take_append_drop t p]
    rw [List.drop_eq_getElem_cons ht]
    rfl
  have hset : p.set t (x ^^^ 2 ^ k) = p.take t ++ (x ^^^ 2 ^ k) :: p.drop (t + 1) := by
    rw [List.set_eq_take_append_cons_drop, if_pos ht]
  have hm : (2 : Nat) ^ k < 2 ^ 32 := by
    have : (2 : Nat) ^ k ≤ 2 ^ 7 := Nat.pow_le_pow_right (by omega) (by omega)
    omega
  have hm0 : (2 : Nat) ^ k ≠ 0 := Nat.pos_iff_ne_zero.mp (Nat.pos_pow_of_pos k (by omega))
  rw [crc32, crc32, hset]
  conv_rhs => rw [hsplit]
  rw [crcUpdate, List.foldl_append, List.foldl_cons, crcUpdate, List.foldl_append,
    List.foldl_cons]
  set S := List.foldl (fun st b => crcRound^[8] (st ^^^ b)) 0xFFFFFFFF (p.take t) with hS
  rw [show S ^^^ (x ^^^ 2 ^ k) = (S ^^^ x) ^^^ 2 ^ k from by rw [Nat.xor_assoc],
    crcRoundN_xor]
  rw [show ∀ z, List.foldl (fun st b => crcRound^[8] (st ^^^ b)) z (p.drop (t + 1))
      = crcUpdate z (p.drop (t + 1)) from fun z => rfl,
    show ∀ z, List.foldl (fun st b => crcRound^[8] (st ^^^ b)) z (p.drop (t + 1))
      = crcUpdate z (p.drop (t + 1)) from fun z => rfl]
  rw [crcUpdate_xor]
  intro hcontra
  set A := crcUpdate (crcRound^[8] (S ^^^ x)) (p.drop (t + 1)) with hA
  set D := crcRound^[8 * (p.drop (t + 1)).length] (crcRound^[8] (2 ^ k)) with hD
  have hdelta : D = 0 := by
    have h1 := congrArg (· ^^^ 0xFFFFFFFF) hcontra
    simp only [Nat.xor_assoc, Nat.xor_self, Nat.xor_zero] at h1
    have h2 := congrArg (fun z => A ^^^ z) h1
    simp only [← Nat.xor_assoc, Nat.xor_self, Nat.zero_xor] at h2
    exact h2
  rw [hD, ← Function.iterate_add_apply] at hdelta
  exact crcRoundN_ne_zero _ hm hm0 hdelta

/-! The frame layer of `jsocket_base.JsonSocket`.  A connection is modelled
from the reader's side as the list of bytes the peer will deliver followed by
what `recv` does once they are exhausted: raise `socket.timeout`, or return
an empty bytes object because the peer closed.  Exceptions are modelled by an
error value carrying whether `_close_connection` ran. -/

/-- The bytes of `FRAME_MAGIC = b"JSN1"`. -/
def FRAME_MAGIC : List Nat := [74, 83, 78, 49]

/-- The value of `struct.calcsize("!4sII")`. -/
def FRAME_HEADER_SIZE : Nat := 12

/-- Ten MiB, the default `max_message_size`. -/
def DEFAULT_MAX_MESSAGE_SIZE : Nat := 10 * 1024 * 1024

/-- Big-endian 32-bit encoding of `n`, as `struct.pack("!I", n)`. -/
def be32 (n : Nat) : List Nat :=
  [n / 2 ^ 24 % 256, n / 2 ^ 16 % 256, n / 2 ^ 8 % 256, n % 256]

/-- Big-endian 32-bit decoding, as `struct.unpack("!I", ·)` on four bytes. -/
def be32val : List Nat → Nat
  | [a, b, c, d] => ((a * 256 + b) * 256 + c) * 256 + d
  | _ => 0

/-- What `recv` does after the delivered bytes run out. -/
inductive EndK where
  | timeout : EndK
  | closed : EndK
deriving DecidableEq

/-- The reader's view of a connection. -/
structure RecvStream where
  buf : List Nat
  tail : EndK
deriving DecidableEq

/-- The kind of a `FramingError`, standing for its message string; the names
follow the failure keys `tserver._framing_failure_kind` maps the messages to
(`timeout_mid` is the message `socket read timeout during message`, whose key
is `timeout`). -/
inductive FrameKind where
  | timeout_mid : FrameKind
  | bad_header : FrameKind
  | oversize : FrameKind
  | bad_crc : FrameKind
  | invalid_utf8 : FrameKind
  | invalid_json : FrameKind
deriving DecidableEq

/-- The exceptions the frame layer raises: `socket.timeout`, `FramingError`,
`RuntimeError("socket connection broken")`, and the `ValueError` of an
oversized send. -/
inductive PyErr where
  | socket_timeout : PyErr
  | framing (k : FrameKind) : PyErr
  | broken : PyErr
  | value_error : PyErr
deriving DecidableEq

/-- Result of `JsonSocket._read`: the bytes read and the remaining stream, or
an exception together with whether `_close_connection` ran. -/
inductive RdRes where
  | ok (data : List Nat) (rest : RecvStream) : RdRes
  | err (e : PyErr) (closed : Bool) (rest : RecvStream) : RdRes
deriving DecidableEq

/-- `JsonSocket._read(size, allow_timeout)`: loop on `recv` until `size` bytes
arrived.  A timeout with nothing yet received re-raises `socket.timeout`
without closing when allowed; any other timeout closes the connection and
raises the mid-message `FramingError`; an empty `recv` result closes and
raises `socket connection broken`. -/
def _read (st : RecvStream) (size : Nat) (allow_timeout : Bool) : RdRes :=
  if size ≤ st.buf.length then .ok (st.buf.take size) ⟨st.buf.drop size, st.tail⟩
  else
    match st.tail with
    | .timeout =>
      if allow_timeout && st.buf.isEmpty then .err .socket_timeout false ⟨[], st.tail⟩
      else .err (.framing .timeout_mid) true ⟨[], st.tail⟩
    | .closed => .err .broken true ⟨[], st.tail⟩

/-- Result of `JsonSocket._read_header`. -/
inductive HdrRes where
  | ok (size : Nat) (checksum : Nat) (rest : RecvStream) : HdrRes
  | err (e : PyErr) (closed : Bool) (rest : RecvStream) : HdrRes
deriving DecidableEq

/-- `JsonSocket._read_header`: read the 12 header bytes with `allow_timeout`,
unpack `!4sII`, validate the magic and then the length bound, closing the
connection on either violation. -/
def _read_header (st : RecvStream) (max_message_size : Option Nat) : HdrRes :=
  match _read st FRAME_HEADER_SIZE true with
  | .err e c rest => .err e c rest
  | .ok hdr rest =>
    let magic := hdr.take 4
    let size := be32val ((hdr.drop 4).take 4)
    let checksum := be32val (hdr.drop 8)
    if magic ≠ FRAME_MAGIC then .err (.framing .bad_header) true rest
    else
      match max_message_size with
      | some m =>
        if size > m then .err (.framing .oversize) true rest
        else .ok size checksum rest
      | none => .ok size checksum rest

/-- Result of `JsonSocket.read_obj`. -/
inductive ReadObjRes where
  | ok (v : Json) (rest : RecvStream) : ReadObjRes
  | err (e : PyErr) (closed : Bool) (rest : RecvStream) : ReadObjRes

/-- `JsonSocket.read_obj`: header, exactly `size` payload bytes, CRC-32
check, UTF-8 decode, JSON parse — each validation failure closing the
connection and raising the named `FramingError`. -/
def read_obj (st : RecvStream) (max_message_size : Option Nat) : ReadObjRes :=
  match _read_header st max_message_size with
  | .err e c rest => .err e c rest
  | .ok size checksum rest =>
    match _read rest size false with
    | .err e c rest2 => .err e c rest2
    | .ok data rest2 =>
      if crc32 data ≠ checksum then .err (.framing .bad_crc) true rest2
      else
        match utf8Decode data with
        | none => .err (.framing .invalid_utf8) true rest2
        | some decoded =>
          match loads decoded with
          | some v => .ok v rest2
          | none => .err (.framing .invalid_json) true rest2

/-- The mutable state of a `JsonSocket` that the modelled operations touch:
whether `self.socket` is set, whether the connection socket is open, the
configured address, port and `max_message_size`, and `_last_send_size`. -/
structure JsonSocketSt where
  socket_present : Bool
  conn_open : Bool
  _address : String
  _port : Nat
  _max_message_size : Option Nat
  _last_send_size : Option Nat
deriving DecidableEq

/-- Result of `JsonSocket.send_obj`: the state afterwards and the bytes that
went out on the wire. -/
inductive SendRes where
  | ok (st : JsonSocketSt) (out : List Nat) : SendRes
  | err (e : PyErr) (st : JsonSocketSt) (out : List Nat) : SendRes

/-- The frame `send_obj` emits for a payload. -/
def frameBytes (payload : List Nat) : List Nat :=
  FRAME_MAGIC ++ (be32 payload.length ++ (be32 (crc32 payload) ++ payload))

/-- `JsonSocket.send_obj`: serialise with `json.dumps`; if no socket exists,
return silently; otherwise record `_last_send_size`, reject a payload larger
than `max_message_size` with a `ValueError` before writing anything, and
else write header and payload (`_send` on a dead connection closes it and
raises `socket connection broken` with nothing delivered). -/
def send_obj (st : JsonSocketSt) (obj : Json) : SendRes :=
  let msg := dumps obj
  if st.socket_present then
    let payload := utf8Encode msg
    let st1 : JsonSocketSt := { st with _last_send_size := some payload.length }
    let go : SendRes :=
      if st1.conn_open then .ok st1 (frameBytes payload)
      else .err .broken { st1 with conn_open := false } []
    match st1._max_message_size with
    | some m => if payload.length > m then .err .value_error st1 [] else go
    | none => go
  else .ok st []

theorem utf8EncodeChar_lt (c : Char) : ∀ b ∈ utf8EncodeChar c, b < 256 := by
  rw [utf8EncodeChar]
  have hval : c.toNat < 0xD800 ∨ (0xDFFF < c.toNat ∧ c.toNat < 0x110000) := c.valid
  split_ifs with h1 h2 h3 <;> intro b hb <;> simp only [List.mem_cons, List.mem_singleton,
    List.not_mem_nil, or_false] at hb
  · omega
  · rcases hb with rfl | rfl <;> omega
  · rcases hb with rfl | rfl | rfl <;> omega
  · have : c.toNat < 0x110000 := by omega
    rcases hb with rfl | rfl | rfl | rfl <;> omega

theorem utf8Encode_lt (cs : List Char) : ∀ b ∈ utf8Encode cs, b < 256 := by
  intro b hb
  rw [utf8Encode, List.mem_flatten] at hb
  obtain ⟨l, hl, hbl⟩ := hb
  rw [List.mem_map] at hl
  obtain ⟨c, -, rfl⟩ := hl
  exact utf8EncodeChar_lt c b hbl

theorem crcUpdate_lt {p : List Nat} (hp : ∀ b ∈ p, b < 256) :
    ∀ {s : Nat}, s < 2 ^ 32 → crcUpdate s p < 2 ^ 32 := by
  induction p with
  | nil => intro s hs; exact hs
  | cons b t ih =>
    intro s hs
    have hb : b < 256 := hp b (List.mem_cons_self _ _)
    have : s ^^^ b < 2 ^ 32 := Nat.xor_lt_two_pow hs (by omega)
    exact ih (fun x hx => hp x (List.mem_cons_of_mem _ hx)) (crcRoundN_lt 8 this)

theorem crc32_lt {p : List Nat} (hp : ∀ b ∈ p, b < 256) : crc32 p < 2 ^ 32 := by
  rw [crc32]
  exact Nat.xor_lt_two_pow (crcUpdate_lt hp (by omega)) (by omega)

theorem be32val_be32 {n : Nat} (h : n < 2 ^ 32) : be32val (be32 n) = n := by
  rw [be32, be32val]
  omega

theorem be32_length (n : Nat) : (be32 n).length = 4 := rfl

theorem _read_exact {st : RecvStream} {n : Nat} (h : n ≤ st.buf.length)
    (allow : Bool) :
    _read st n allow = .ok (st.buf.take n) ⟨st.buf.drop n, st.tail⟩ := by
  rw [_read, if_pos h]

/-- The header `send_obj` emits. -/
def frameHdr (p : List Nat) : List Nat :=
  FRAME_MAGIC ++ (be32 p.length ++ be32 (crc32 p))

theorem frameHdr_length (p : List Nat) : (frameHdr p).length = 12 := by
  simp [frameHdr, FRAME_MAGIC, be32]

theorem frameBytes_eq (p : List Nat) : frameBytes p = frameHdr p ++ p := by
  simp [frameBytes, frameHdr]

theorem frameHdr_take4 (p : List Nat) : (frameHdr p).take 4 = FRAME_MAGIC := rfl

theorem frameHdr_drop4 (p : List Nat) :
    ((frameHdr p).drop 4).take 4 = be32 p.length := rfl

theorem frameHdr_drop8 (p : List Nat) : (frameHdr p).drop 8 = be32 (crc32 p) := rfl

/-- A 12-byte header with arbitrary length and checksum fields. -/
def genHdr (n c : Nat) : List Nat := FRAME_MAGIC ++ (be32 n ++ be32 c)

theorem genHdr_length (n c : Nat) : (genHdr n c).length = 12 := by
  simp [genHdr, FRAME_MAGIC, be32]

theorem genHdr_take4 (n c : Nat) : (genHdr n c).take 4 = FRAME_MAGIC := rfl

theorem genHdr_drop4 (n c : Nat) : ((genHdr n c).drop 4).take 4 = be32 n := rfl

theorem genHdr_drop8 (n c : Nat) : (genHdr n c).drop 8 = be32 c := rfl

theorem frameHdr_genHdr (p : List Nat) : frameHdr p = genHdr p.length (crc32 p) := rfl

theorem _read_genHdr (n c : Nat) (Q : List Nat) (e : EndK) :
    _read ⟨genHdr n c ++ Q, e⟩ FRAME_HEADER_SIZE true = .ok (genHdr n c) ⟨Q, e⟩ := by
  rw [show FRAME_HEADER_SIZE = (genHdr n c).length from (genHdr_length n c).symm,
    _read_exact (by simp) true]
  simp only [List.take_left, List.drop_left]

/-- Reading a syntactically well-formed header parses its fields and leaves
the rest of the stream untouched. -/
theorem _read_header_ok {n c : Nat} {Q : List Nat} {e : EndK} {m : Nat}
    (h32 : n < 2 ^ 32) (hc32 : c < 2 ^ 32) (hnm : n ≤ m) :
    _read_header ⟨genHdr n c ++ Q, e⟩ (some m) = .ok n c ⟨Q, e⟩ := by
  rw [_read_header, _read_genHdr]
  simp only [genHdr_take4, genHdr_drop4, genHdr_drop8, be32val_be32 h32,
    be32val_be32 hc32, ne_eq, not_true_eq_false, if_false, gt_iff_lt]
  rw [if_neg (by omega)]

/-- A length field above the limit is rejected before any payload byte is
consumed, closing the connection. -/
theorem _read_header_oversize {n c : Nat} {Q : List Nat} {e : EndK} {m : Nat}
    (h32 : n < 2 ^ 32) (hgt : n > m) :
    _read_header ⟨genHdr n c ++ Q, e⟩ (some m)
      = .err (.framing .oversize) true ⟨Q, e⟩ := by
  rw [_read_header, _read_genHdr]
  simp only [genHdr_take4, genHdr_drop4, genHdr_drop8, be32val_be32 h32, ne_eq,
    not_true_eq_false, if_false, gt_iff_lt]
  rw [if_pos (by omega)]

/-- A magic mismatch is rejected first, closing the connection. -/
theorem _read_header_bad_magic {B : List Nat} {e : EndK} {M : Option Nat}
    (hlen : 12 ≤ B.length) (hmag : B.take 4 ≠ FRAME_MAGIC) :
    _read_header ⟨B, e⟩ M = .err (.framing .bad_header) true ⟨B.drop 12, e⟩ := by
  rw [_read_header, show FRAME_HEADER_SIZE = 12 from rfl, _read_exact hlen true]
  have ht : (B.take 12).take 4 = B.take 4 := by
    rw [List.take_take]
    norm_num
  simp only [ht]
  rw [if_pos hmag]

/-- Reading the header of a well-formed frame parses its length and checksum
and leaves the payload in the stream. -/
theorem _read_header_frame {p : List Nat} {e : EndK} {m : Nat}
    (hlen : p.length ≤ m) (h32 : p.length < 2 ^ 32) (hc32 : crc32 p < 2 ^ 32) :
    _read_header ⟨frameBytes p, e⟩ (some m) = .ok p.length (crc32 p) ⟨p, e⟩ := by
  rw [frameBytes_eq, frameHdr_genHdr]
  exact _read_header_ok h32 hc32 hlen

/-- Claim C1: for every JSON-serialisable value `v` (every value of the model,
object keys duplicate-free) whose UTF-8 serialisation fits `max_message_size`,
`send_obj` emits exactly the frame `JSN1 || length || CRC-32 || payload`
(big-endian), and `read_obj` run on that byte stream returns a value equal to
`v`, consuming the whole frame. -/
theorem c1_send_obj_read_obj_roundtrip
    (v : Json) (st : JsonSocketSt) (m : Nat) (e : EndK)
    (hg : goodJson v = true) (hsock : st.socket_present = true)
    (hconn : st.conn_open = true) (hmax : st._max_message_size = some m)
    (hlen : (utf8Encode (dumps v)).length ≤ m) (hm32 : m < 2 ^ 32) :
    send_obj st v
      = .ok { st with _last_send_size := some (utf8Encode (dumps v)).length }
          (frameBytes (utf8Encode (dumps v)))
    ∧ read_obj ⟨frameBytes (utf8Encode (dumps v)), e⟩ (some m) = .ok v ⟨[], e⟩ := by
  constructor
  · rw [send_obj]
    simp only [hsock, if_true, hmax]
    rw [if_neg (by omega)]
    simp [hconn]
  · have hbytes := utf8Encode_lt (dumps v)
    rw [read_obj, _read_header_frame hlen (by omega) (crc32_lt hbytes)]
    have h2 : _read ⟨utf8Encode (dumps v), e⟩ (utf8Encode (dumps v)).length false
        = .ok (utf8Encode (dumps v)) ⟨[], e⟩ := by
      rw [_read_exact (le_refl _) false]
      simp
    simp only [h2,
      if_neg (show ¬ crc32 (utf8Encode (dumps v)) ≠ crc32 (utf8Encode (dumps v)) by simp),
      utf8Decode_encode, loads_dumps hg]

/-- Witness for C1 at the echo payload of the test suite. -/
theorem c1_witness :
    send_obj
        ⟨true, true, "127.0.0.1", 5489, some DEFAULT_MAX_MESSAGE_SIZE, none⟩
        (.obj [("echo".toList, .str "hello".toList), ("i".toList, .num 1)])
      = .ok ⟨true, true, "127.0.0.1", 5489, some DEFAULT_MAX_MESSAGE_SIZE,
          some (utf8Encode (dumps (.obj [("echo".toList, .str "hello".toList),
            ("i".toList, .num 1)]))).length⟩
          (frameBytes (utf8Encode (dumps (.obj [("echo".toList, .str "hello".toList),
            ("i".toList, .num 1)]))))
    ∧ read_obj
        ⟨frameBytes (utf8Encode (dumps (.obj [("echo".toList, .str "hello".toList),
          ("i".toList, .num 1)]))), .timeout⟩ (some DEFAULT_MAX_MESSAGE_SIZE)
      = .ok (.obj [("echo".toList, .str "hello".toList), ("i".toList, .num 1)])
          ⟨[], .timeout⟩ :=
  c1_send_obj_read_obj_roundtrip
    (.obj [("echo".toList, .str "hello".toList), ("i".toList, .num 1)])
    ⟨true, true, "127.0.0.1", 5489, some DEFAULT_MAX_MESSAGE_SIZE, none⟩
    DEFAULT_MAX_MESSAGE_SIZE .timeout
    (by decide) rfl rfl rfl (by decide) (by decide)

theorem isEmpty_false_of_length {α : Type} {l : List α} (h : 1 ≤ l.length) :
    l.isEmpty = false := by
  cases l with
  | nil => simp at h
  | cons a t => rfl

theorem frameBytes_length (p : List Nat) : (frameBytes p).length = 12 + p.length := by
  simp [frameBytes, FRAME_MAGIC, be32]
  omega

theorem _read_timeout_mid {st : RecvStream} {n : Nat} (h : st.buf.length < n)
    (htail : st.tail = .timeout) (hcase : st.buf.isEmpty = false ∨ n ≠ 0) :
    _read st n false = .err (.framing .timeout_mid) true ⟨[], st.tail⟩ := by
  obtain ⟨buf, tail⟩ := st
  subst htail
  rw [_read, if_neg (by simp at h ⊢; omega)]
  simp [Bool.false_and]

theorem _read_timeout_partial {st : RecvStream} {n : Nat} (h : st.buf.length < n)
    (htail : st.tail = .timeout) (hne : st.buf.isEmpty = false) :
    _read st n true = .err (.framing .timeout_mid) true ⟨[], st.tail⟩ := by
  obtain ⟨buf, tail⟩ := st
  subst htail
  rw [_read, if_neg (by simp at h ⊢; omega)]
  simp only at hne
  simp [hne]

/-- Claim C3: a header read that times out before any byte arrived surfaces as
a plain `socket.timeout` and leaves the connection open; a timeout after at
least one byte of the message (a partial header or a partial payload)
closes the connection and raises a `FramingError`. -/
theorem c3_read_timeout_recoverability (p : List Nat) (m : Nat)
    (hlen : p.length ≤ m) (h32 : p.length < 2 ^ 32) (hp : ∀ b ∈ p, b < 256) :
    read_obj ⟨[], .timeout⟩ (some m) = .err .socket_timeout false ⟨[], .timeout⟩
    ∧ (∀ k, 1 ≤ k → k < (frameBytes p).length →
        read_obj ⟨(frameBytes p).take k, .timeout⟩ (some m)
          = .err (.framing .timeout_mid) true ⟨[], .timeout⟩) := by
  constructor
  · rfl
  · intro k hk1 hk2
    rw [frameBytes_length] at hk2
    by_cases hk12 : k < 12
    · have hblen : ((frameBytes p).take k).length = k := by
        rw [List.length_take, frameBytes_length]
        omega
      have hpart : _read ⟨(frameBytes p).take k, .timeout⟩ FRAME_HEADER_SIZE true
          = .err (.framing .timeout_mid) true ⟨[], .timeout⟩ := by
        apply _read_timeout_partial
        · simp only [hblen]
          show k < 12
          omega
        · rfl
        · exact isEmpty_false_of_length (by rw [hblen]; omega)
      rw [read_obj, _read_header, hpart]
    · have hsplit : (frameBytes p).take k = genHdr p.length (crc32 p) ++ p.take (k - 12) := by
        rw [frameBytes_eq, frameHdr_genHdr, List.take_append_eq_append_take,
          List.take_of_length_le (by rw [genHdr_length]; omega), genHdr_length]
      rw [read_obj, hsplit, _read_header_ok h32 (crc32_lt hp) hlen]
      have hrd : _read ⟨p.take (k - 12), .timeout⟩ p.length false
          = .err (.framing .timeout_mid) true ⟨[], .timeout⟩ := by
        apply _read_timeout_mid
        · simp only [List.length_take]
          show min (k - 12) p.length < p.length
          omega
        · rfl
        · right
          omega
      simp only [hrd]

/-- Witness for C3 at the empty-object payload, with six bytes delivered. -/
theorem c3_witness :
    read_obj ⟨[], .timeout⟩ (some DEFAULT_MAX_MESSAGE_SIZE)
      = .err .socket_timeout false ⟨[], .timeout⟩
    ∧ read_obj ⟨(frameBytes (utf8Encode (dumps (.obj [])))).take 6, .timeout⟩
        (some DEFAULT_MAX_MESSAGE_SIZE)
      = .err (.framing .timeout_mid) true ⟨[], .timeout⟩ := by
  have h := c3_read_timeout_recoverability (utf8Encode (dumps (.obj [])))
    DEFAULT_MAX_MESSAGE_SIZE (by decide) (by decide) (by decide)
  exact ⟨h.1, h.2 6 (by decide) (by decide)⟩

/-- Claim C4: `read_obj` validates, in order — magic, then length bound (before
reading any payload byte), then CRC-32, then UTF-8, then JSON — raising the
named `FramingError` and closing the connection on each failure. -/
theorem c4_read_obj_validation_order (e : EndK) (m : Nat) :
    (∀ B : List Nat, 12 ≤ B.length → B.take 4 ≠ FRAME_MAGIC →
        read_obj ⟨B, e⟩ (some m) = .err (.framing .bad_header) true ⟨B.drop 12, e⟩)
    ∧ (∀ n c Q, n < 2 ^ 32 → n > m →
        read_obj ⟨genHdr n c ++ Q, e⟩ (some m)
          = .err (.framing .oversize) true ⟨Q, e⟩)
    ∧ (∀ p c, p.length ≤ m → p.length < 2 ^ 32 → c < 2 ^ 32 → c ≠ crc32 p →
        read_obj ⟨genHdr p.length c ++ p, e⟩ (some m)
          = .err (.framing .bad_crc) true ⟨[], e⟩)
    ∧ (∀ p, p.length ≤ m → p.length < 2 ^ 32 → (∀ b ∈ p, b < 256) →
        utf8Decode p = none →
        read_obj ⟨frameBytes p, e⟩ (some m) = .err (.framing .invalid_utf8) true ⟨[], e⟩)
    ∧ (∀ p d, p.length ≤ m → p.length < 2 ^ 32 → (∀ b ∈ p, b < 256) →
        utf8Decode p = some d → loads d = none →
        read_obj ⟨frameBytes p, e⟩ (some m) = .err (.framing .invalid_json) true ⟨[], e⟩) := by
  refine ⟨?_, ?_, ?_, ?_, ?_⟩
  · intro B hlen hmag
    rw [read_obj, _read_header_bad_magic hlen hmag]
  · intro n c Q h32 hgt
    rw [read_obj, _read_header_oversize h32 hgt]
  · intro p c hlen h32 hc32 hne
    rw [read_obj, _read_header_ok h32 hc32 hlen]
    have hrd : _read ⟨p, e⟩ p.length false = .ok p ⟨[], e⟩ := by
      rw [_read_exact (le_refl _) false]
      simp
    simp only [hrd]
    rw [if_pos (fun hcc => hne hcc.symm)]
  · intro p hlen h32 hp hdec
    rw [read_obj, _read_header_frame hlen h32 (crc32_lt hp)]
    have hrd : _read ⟨p, e⟩ p.length false = .ok p ⟨[], e⟩ := by
      rw [_read_exact (le_refl _) false]
      simp
    simp only [hrd, if_neg (show ¬ crc32 p ≠ crc32 p by simp), hdec]
  · intro p d hlen h32 hp hdec hload
    rw [read_obj, _read_header_frame hlen h32 (crc32_lt hp)]
    have hrd : _read ⟨p, e⟩ p.length false = .ok p ⟨[], e⟩ := by
      rw [_read_exact (le_refl _) false]
      simp
    simp only [hrd, if_neg (show ¬ crc32 p ≠ crc32 p by simp), hdec, hload]

/-- Witness for C4, exercising each validation failure at a concrete frame:
wrong magic, a length of 2^20 against a 1 KiB limit, a corrupted checksum, the
lone byte 0xFF as payload, and the payload `not-json`. -/
theorem c4_witness :
    read_obj ⟨[0, 0, 0, 0, 0, 0, 0, 2, 0, 0, 0, 0, 65, 65], .timeout⟩ (some 1024)
      = .err (.framing .bad_header) true ⟨[65, 65], .timeout⟩
    ∧ read_obj ⟨genHdr 1048576 0 ++ [], .timeout⟩ (some 1024)
      = .err (.framing .oversize) true ⟨[], .timeout⟩
    ∧ read_obj ⟨genHdr 2 0 ++ [65, 65], .timeout⟩ (some 1024)
      = .err (.framing .bad_crc) true ⟨[], .timeout⟩
    ∧ read_obj ⟨frameBytes [255], .timeout⟩ (some 1024)
      = .err (.framing .invalid_utf8) true ⟨[], .timeout⟩
    ∧ read_obj ⟨frameBytes (utf8Encode "not-json".toList), .timeout⟩ (some 1024)
      = .err (.framing .invalid_json) true ⟨[], .timeout⟩ := by
  obtain ⟨h1, h2, h3, h4, h5⟩ := c4_read_obj_validation_order .timeout 1024
  refine ⟨h1 _ (by decide) (by decide), h2 1048576 0 [] (by decide) (by decide),
    ?_, h4 [255] (by decide) (by decide) (by decide) (by decide),
    h5 (utf8Encode "not-json".toList) "not-json".toList (by decide) (by decide)
      (by decide) (by rfl) (by rfl)⟩
  have := h3 [65, 65] 0 (by decide) (by decide) (by decide) (by decide)
  exact this

/-! Property setters of `JsonSocket`, and the send-side error paths. -/

/-- `JsonSocket._set_address`: the body is `return None`, so assigning the
`address` property leaves the object untouched. -/
def _set_address (st : JsonSocketSt) (_address : String) : JsonSocketSt := st

/-- `JsonSocket._set_port`: the body is `return None`, so assigning the
`port` property leaves the object untouched. -/
def _set_port (st : JsonSocketSt) (_port : Nat) : JsonSocketSt := st

/-- The socket fields `ServerFactoryThread.__init__` leaves behind: it passes
`create_socket=False`, so `self.socket` and `self.conn` stay `None` until
`swap_socket` hands the worker an accepted connection. -/
def serverFactoryThread_init_st (address : String) (port : Nat)
    (max_message_size : Option Nat) : JsonSocketSt :=
  { socket_present := false
    conn_open := false
    _address := address
    _port := port
    _max_message_size := max_message_size
    _last_send_size := none }

/-- Claim C7: a payload above `max_message_size` makes `send_obj` fail
synchronously with a `ValueError` before any byte is written, the connection
stays open, and a subsequent compliant send on the same socket succeeds and
emits its full frame. -/
theorem c7_send_obj_oversize (st : JsonSocketSt) (m : Nat) (big small : Json)
    (hsock : st.socket_present = true) (hconn : st.conn_open = true)
    (hmax : st._max_message_size = some m)
    (hbig : (utf8Encode (dumps big)).length > m)
    (hsmall : (utf8Encode (dumps small)).length ≤ m) :
    send_obj st big
      = .err .value_error { st with _last_send_size := some (utf8Encode (dumps big)).length } []
    ∧ ({ st with _last_send_size := some (utf8Encode (dumps big)).length}).conn_open = true
    ∧ send_obj { st with _last_send_size := some (utf8Encode (dumps big)).length } small
      = .ok { st with _last_send_size := some (utf8Encode (dumps small)).length }
          (frameBytes (utf8Encode (dumps small))) := by
  refine ⟨?_, by simp [hconn], ?_⟩
  · rw [send_obj]
    simp only [hsock, if_true, hmax]
    rw [if_pos (by omega)]
  · rw [send_obj]
    simp only [hsock, if_true, hmax]
    rw [if_neg (by omega)]
    simp [hconn]

/-- Witness for C7: a 32-byte payload against a 16-byte limit, then a small
echo object. -/
theorem c7_witness :
    send_obj ⟨true, true, "127.0.0.1", 5489, some 16, none⟩
        (.str (List.replicate 32 'a'))
      = .err .value_error
          ⟨true, true, "127.0.0.1", 5489, some 16,
            some (utf8Encode (dumps (.str (List.replicate 32 'a')))).length⟩ []
    ∧ (⟨true, true, "127.0.0.1", 5489, some 16,
          some (utf8Encode (dumps (.str (List.replicate 32 'a')))).length⟩
        : JsonSocketSt).conn_open = true
    ∧ send_obj ⟨true, true, "127.0.0.1", 5489, some 16,
          some (utf8Encode (dumps (.str (List.replicate 32 'a')))).length⟩
        (.obj [("echo".toList, .str "ok".toList)])
      = .ok ⟨true, true, "127.0.0.1", 5489, some 16,
            some (utf8Encode (dumps (.obj [("echo".toList, .str "ok".toList)]))).length⟩
          (frameBytes (utf8Encode (dumps (.obj [("echo".toList, .str "ok".toList)])))) :=
  c7_send_obj_oversize ⟨true, true, "127.0.0.1", 5489, some 16, none⟩ 16
    (.str (List.replicate 32 'a')) (.obj [("echo".toList, .str "ok".toList)])
    rfl rfl rfl (by decide) (by decide)

/-- Claim C9: with `self.socket` unset — as on a `ServerFactoryThread` before
`swap_socket` — `send_obj` serialises the object (`json.dumps` runs before the
socket test) and then returns normally: no bytes are sent, no error is raised
and the state is unchanged; the message is silently dropped.  The serialised
text is well defined for every value of the model, and the returned state and
output are independent of it. -/
theorem c9_send_obj_no_socket (st : JsonSocketSt) (obj : Json)
    (hsock : st.socket_present = false) :
    send_obj st obj = .ok st []
    ∧ (serverFactoryThread_init_st st._address st._port st._max_message_size).socket_present
        = false := by
  constructor
  · rw [send_obj]
    simp [hsock]
  · rfl

/-- Witness for C9 on a fresh worker state. -/
theorem c9_witness :
    send_obj (serverFactoryThread_init_st "127.0.0.1" 5489 (some DEFAULT_MAX_MESSAGE_SIZE))
        (.obj [("echo".toList, .str "hello".toList)])
      = .ok (serverFactoryThread_init_st "127.0.0.1" 5489 (some DEFAULT_MAX_MESSAGE_SIZE)) []
    ∧ (serverFactoryThread_init_st "127.0.0.1" 5489
        (some DEFAULT_MAX_MESSAGE_SIZE)).socket_present = false :=
  ⟨(c9_send_obj_no_socket _ (.obj [("echo".toList, .str "hello".toList)]) rfl).1,
   (c9_send_obj_no_socket (serverFactoryThread_init_st "127.0.0.1" 5489
      (some DEFAULT_MAX_MESSAGE_SIZE)) (.obj [("echo".toList, .str "hello".toList)]) rfl).2⟩

/-- Claim C10: assigning the `address` or `port` property is a silent no-op —
the setters return `None` without touching the object, so the stored address,
port and every other field are unchanged and no error is raised. -/
theorem c10_address_port_setters_noop (st : JsonSocketSt) (a : String) (p : Nat) :
    _set_address st a = st ∧ _set_port st p = st ∧
      (_set_address st a)._address = st._address ∧ (_set_port st p)._port = st._port :=
  ⟨rfl, rfl, rfl, rfl⟩

/-- Witness for C10 at a concrete socket state. -/
theorem c10_witness :
    _set_address ⟨true, true, "127.0.0.1", 5489, some DEFAULT_MAX_MESSAGE_SIZE, none⟩
        "10.0.0.1"
      = ⟨true, true, "127.0.0.1", 5489, some DEFAULT_MAX_MESSAGE_SIZE, none⟩
    ∧ _set_port ⟨true, true, "127.0.0.1", 5489, some DEFAULT_MAX_MESSAGE_SIZE, none⟩ 9999
      = ⟨true, true, "127.0.0.1", 5489, some DEFAULT_MAX_MESSAGE_SIZE, none⟩ :=
  ⟨(c10_address_port_setters_noop _ "10.0.0.1" 9999).1,
   (c10_address_port_setters_noop ⟨true, true, "127.0.0.1", 5489,
      some DEFAULT_MAX_MESSAGE_SIZE, none⟩ "10.0.0.1" 9999).2.1⟩

/-! The client connect/retry loop of `JsonClient.connect`.  The TCP outcome of
attempt `i` is a parameter `outcomes i`; a `socket.error` is the only thing an
attempt can raise and the loop catches it, so the model is a total function —
`connect` never propagates an error to the caller. -/

/-- What a run of `JsonClient.connect` did: the result, the `(attempt number,
socket generation)` pairs in order (generation 0 is the socket `__init__`
created; `_recreate_socket` bumps it), the total seconds slept, and how many
times the socket was closed and recreated. -/
structure ConnectRes where
  success : Bool
  attempts : List (Nat × Nat)
  sleepSeconds : Nat
  recreates : Nat
deriving DecidableEq

/-- The `for attempt in range(1, 11)` loop: try to connect; on failure close
and recreate the socket, sleep three seconds and continue; on success return
`True`; after the loop return `False`. -/
def connectAux (outcomes : Nat → Bool) : Nat → Nat → Nat → ConnectRes
  | 0, _, _ => ⟨false, [], 0, 0⟩
  | fuel + 1, attempt, gen =>
    if outcomes attempt then ⟨true, [(attempt, gen)], 0, 0⟩
    else
      let r := connectAux outcomes fuel (attempt + 1) (gen + 1)
      ⟨r.success, (attempt, gen) :: r.attempts, r.sleepSeconds + 3, r.recreates + 1⟩

/-- `JsonClient.connect()`: ten attempts starting at attempt 1 on the socket
built by `__init__` (generation 0). -/
def connect (outcomes : Nat → Bool) : ConnectRes := connectAux outcomes 10 1 0

theorem connectAux_all_fail (outcomes : Nat → Bool) :
    ∀ (f a g : Nat), (∀ j, a ≤ j → j < a + f → outcomes j = false) →
      connectAux outcomes f a g
        = ⟨false, (List.range' a f).map (fun i => (i, g + (i - a))), 3 * f, f⟩ := by
  intro f
  induction f with
  | zero => intro a g _; rfl
  | succ f ih =>
    intro a g hfail
    rw [connectAux, if_neg (by rw [hfail a (le_refl a) (by omega)]; exact Bool.false_ne_true)]
    rw [ih (a + 1) (g + 1) (fun j h1 h2 => hfail j (by omega) (by omega))]
    have hmap : (List.range' (a + 1) f).map (fun i => (i, g + 1 + (i - (a + 1))))
        = (List.range' (a + 1) f).map (fun i => (i, g + (i - a))) := by
      apply List.map_congr_left
      intro i hi
      rw [List.mem_range'_1] at hi
      have : g + 1 + (i - (a + 1)) = g + (i - a) := by omega
      rw [this]
    simp only [ConnectRes.mk.injEq]
    refine ⟨trivial, ?_, by omega, trivial⟩
    rw [hmap]
    conv_rhs => rw [List.range'_succ]
    simp only [List.map_cons, Nat.sub_self, Nat.add_zero]

theorem connectAux_first_success (outcomes : Nat → Bool) :
    ∀ (f a g k : Nat), a ≤ k → k < a + f → outcomes k = true →
      (∀ j, a ≤ j → j < k → outcomes j = false) →
      connectAux outcomes f a g
        = ⟨true, (List.range' a (k - a + 1)).map (fun i => (i, g + (i - a))),
            3 * (k - a), k - a⟩ := by
  intro f
  induction f with
  | zero => intro a g k h1 h2; omega
  | succ f ih =>
    intro a g k h1 h2 hk hbefore
    by_cases ha : outcomes a = true
    · have hka : k = a := by
        by_contra hne
        have : outcomes a = false := hbefore a (le_refl a) (by omega)
        rw [ha] at this
        cases this
      subst hka
      rw [connectAux, if_pos ha]
      have : k - k + 1 = 1 := by omega
      rw [this]
      simp [List.range'_one]
    · have hka : a < k := by
        rcases Nat.lt_or_ge a k with h | h
        · exact h
        · have : k = a := by omega
          rw [this] at hk
          exact absurd hk ha
      rw [connectAux, if_neg ha]
      rw [ih (a + 1) (g + 1) k (by omega) (by omega) hk
        (fun j hj1 hj2 => hbefore j (by omega) hj2)]
      have hmap : (List.range' (a + 1) (k - (a + 1) + 1)).map
            (fun i => (i, g + 1 + (i - (a + 1))))
          = (List.range' (a + 1) (k - (a + 1) + 1)).map (fun i => (i, g + (i - a))) := by
        apply List.map_congr_left
        intro i hi
        rw [List.mem_range'_1] at hi
        have : g + 1 + (i - (a + 1)) = g + (i - a) := by omega
        rw [this]
      simp only [ConnectRes.mk.injEq]
      refine ⟨trivial, ?_, by omega, by omega⟩
      rw [hmap]
      have hrange : k - a + 1 = (k - (a + 1) + 1) + 1 := by omega
      conv_rhs => rw [hrange, List.range'_succ]
      simp only [List.map_cons, Nat.sub_self, Nat.add_zero]

/-- Claim C8: `connect()` attempts at most ten TCP connects; when every
attempt in 1..10 fails it makes exactly the attempts 1..10, sleeps a fixed
3 seconds after each failure (30 s total), closes and recreates the socket
after each failure so attempt `i` runs on the fresh descriptor generation
`i - 1`, and returns false without raising; when attempt `k` is the first to
succeed it stops there and returns true.  The trace equalities exhibit the
attempt list, the per-failure backoff and the fresh generations exactly. -/
theorem c8_connect_retry (outcomes : Nat → Bool) :
    ((∀ j, 1 ≤ j → j ≤ 10 → outcomes j = false) →
      connect outcomes
        = ⟨false, (List.range' 1 10).map (fun i => (i, i - 1)), 30, 10⟩)
    ∧ (∀ k, 1 ≤ k → k ≤ 10 → outcomes k = true →
        (∀ j, 1 ≤ j → j < k → outcomes j = false) →
        connect outcomes
          = ⟨true, (List.range' 1 k).map (fun i => (i, i - 1)), 3 * (k - 1), k - 1⟩) := by
  constructor
  · intro hfail
    rw [connect, connectAux_all_fail outcomes 10 1 0 (fun j h1 h2 => hfail j h1 (by omega))]
    rfl
  · intro k hk1 hk10 hk hbefore
    rw [connect, connectAux_first_success outcomes 10 1 0 k hk1 (by omega) hk hbefore]
    have : k - 1 + 1 = k := by omega
    rw [this]
    congr 1
    apply List.map_congr_left
    intro i hi
    rw [List.mem_range'_1] at hi
    have : 0 + (i - 1) = i - 1 := by omega
    rw [this]

/-- Witness for C8: a service that answers from the third attempt on. -/
theorem c8_witness :
    connect (fun i => decide (3 ≤ i))
      = ⟨true, [(1, 0), (2, 1), (3, 2)], 6, 2⟩ := by
  have h := (c8_connect_retry (fun i => decide (3 ≤ i))).2 3 (by decide) (by decide)
    (by decide) (by intro j h1 h2; interval_cases j <;> decide)
  rw [h]
  rfl

/-! The per-client statistics subsystem of `tserver.py`.  Wall-clock
(`_now_ts`) and monotonic (`time.monotonic`) times are floats in the source;
the model passes them in explicitly as naturals.  Stats dictionaries are
insertion-ordered association lists with Python-dict update semantics
(assignment to an existing key keeps its position, otherwise appends). -/

/-- The nine failure keys of `_new_failure_counts`.  The failures dict is
open-keyed in Python but every caller passes one of these nine strings
(`_framing_failure_kind` and the literal kinds in the server loops). -/
inductive FailureKind where
  | timeout
  | bad_write
  | bad_crc
  | bad_header
  | oversize
  | invalid_utf8
  | invalid_json
  | handler
  | framing
deriving DecidableEq

/-- The failures dict: one counter per key of `_new_failure_counts`. -/
structure FailureCounts where
  timeout : Nat
  bad_write : Nat
  bad_crc : Nat
  bad_header : Nat
  oversize : Nat
  invalid_utf8 : Nat
  invalid_json : Nat
  handler : Nat
  framing : Nat
deriving DecidableEq

/-- One per-client stats record as built by `_new_client_stats` and mutated
by the `_note_*` helpers.  Timestamp fields are `None`-able floats in the
source, modelled as `Option Nat`; `total_connected_duration` is a duration
accumulated from a monotonic clock, modelled as `Nat`. -/
structure ClientStats where
  client_id : List Char
  connected : Bool
  connects : Nat
  disconnects : Nat
  messages_in : Nat
  messages_out : Nat
  bytes_in : Nat
  bytes_out : Nat
  total_connected_duration : Nat
  failures : FailureCounts
  last_connect_ts : Option Nat
  last_disconnect_ts : Option Nat
  last_message_ts : Option Nat
  _connected_since : Option Nat
deriving DecidableEq

/-- `d.get(k)` on an insertion-ordered dict. -/
def statsGet : List (List Char × ClientStats) → List Char → Option ClientStats
  | [], _ => none
  | kv :: rest, k => if kv.1 = k then some kv.2 else statsGet rest k

/-- `d[k] = v`: replace in place when the key exists, else append. -/
def statsSet : List (List Char × ClientStats) → List Char → ClientStats →
    List (List Char × ClientStats)
  | [], k, v => [(k, v)]
  | kv :: rest, k, v => if kv.1 = k then (k, v) :: rest else kv :: statsSet rest k v

/-- `d.pop(k, None)`: drop the binding of `k` when present. -/
def statsPop : List (List Char × ClientStats) → List Char →
    List (List Char × ClientStats)
  | [], _ => []
  | kv :: rest, k => if kv.1 = k then rest else kv :: statsPop rest k

/-- `_new_failure_counts()`. -/
def _new_failure_counts : FailureCounts := ⟨0, 0, 0, 0, 0, 0, 0, 0, 0⟩

/-- `_new_client_stats(client_id)`. -/
def _new_client_stats (cid : List Char) : ClientStats :=
  ⟨cid, false, 0, 0, 0, 0, 0, 0, 0, _new_failure_counts, none, none, none, none⟩

/-- The stats-bearing fields of a server object: `_client_stats`,
`_active_client_id` and `_client_id` (the peer-address id recorded at
accept time). -/
structure StatsState where
  _client_stats : List (List Char × ClientStats)
  _active_client_id : Option (List Char)
  _client_id : Option (List Char)
deriving DecidableEq

/-- `_get_active_client_id`: the active id when truthy (present and
non-empty), else `_client_id`. -/
def _get_active_client_id (st : StatsState) : Option (List Char) :=
  match st._active_client_id with
  | some cid => if cid.isEmpty then st._client_id else some cid
  | none => st._client_id

/-- `_get_or_create_stats`: the record for `cid`, inserting a fresh one
when absent; returns the record and the (possibly grown) map. -/
def _get_or_create_stats (m : List (List Char × ClientStats)) (cid : List Char) :
    ClientStats × List (List Char × ClientStats) :=
  match statsGet m cid with
  | some s => (s, m)
  | none => (_new_client_stats cid, statsSet m cid (_new_client_stats cid))

/-- The field updates `_note_connect` applies to the active record: mark
connected, bump `connects`, stamp `last_connect_ts`, start
`_connected_since` if not already running. -/
def _connect_update (s : ClientStats) (wall mono : Nat) : ClientStats :=
  { s with
    connected := true
    connects := s.connects + 1
    last_connect_ts := some wall
    _connected_since := match s._connected_since with
      | none => some mono
      | some x => some x }

/-- `_note_connect(obj, client_id)` at wall time `wall` and monotonic time
`mono`: falsy ids become `"unknown"`; update the record and make the id
active. -/
def _note_connect (st : StatsState) (cid0 : List Char) (wall mono : Nat) :
    StatsState :=
  { st with
    _client_stats :=
      statsSet
        (_get_or_create_stats st._client_stats
          (if cid0.isEmpty then "unknown".toList else cid0)).2
        (if cid0.isEmpty then "unknown".toList else cid0)
        (_connect_update
          (_get_or_create_stats st._client_stats
            (if cid0.isEmpty then "unknown".toList else cid0)).1 wall mono)
    _active_client_id := some (if cid0.isEmpty then "unknown".toList else cid0) }

/-- The field updates `_note_disconnect` applies to a connected record:
flip `connected`, bump `disconnects`, stamp `last_disconnect_ts`, fold the
open interval into `total_connected_duration`, clear `_connected_since`. -/
def _disconnect_update (s : ClientStats) (wall mono : Nat) : ClientStats :=
  { s with
    connected := false
    disconnects := s.disconnects + 1
    last_disconnect_ts := some wall
    total_connected_duration := match s._connected_since with
      | some cs => s.total_connected_duration + (mono - cs)
      | none => s.total_connected_duration
    _connected_since := none }

/-- `_note_disconnect(obj)`: no-op without a truthy active id; a record not
marked connected is left as is (though `_get_or_create_stats` may have
inserted it); otherwise update the record and clear the active id. -/
def _note_disconnect (st : StatsState) (wall mono : Nat) : StatsState :=
  match _get_active_client_id st with
  | none => st
  | some cid =>
    if cid.isEmpty then st
    else if (_get_or_create_stats st._client_stats cid).1.connected = false then
      { st with _client_stats := (_get_or_create_stats st._client_stats cid).2 }
    else
      { st with
        _client_stats :=
          statsSet (_get_or_create_stats st._client_stats cid).2 cid
            (_disconnect_update (_get_or_create_stats st._client_stats cid).1
              wall mono)
        _active_client_id := none }

/-- The field updates `_note_message_in` applies. -/
def _message_in_update (s : ClientStats) (size : Option Nat) (wall : Nat) :
    ClientStats :=
  { s with
    messages_in := s.messages_in + 1
    bytes_in := s.bytes_in + size.getD 0
    last_message_ts := some wall }

/-- `_note_message_in(obj, size)` at wall time `wall`. -/
def _note_message_in (st : StatsState) (size : Option Nat) (wall : Nat) :
    StatsState :=
  match _get_active_client_id st with
  | none => st
  | some cid =>
    if cid.isEmpty then st
    else
      { st with
        _client_stats :=
          statsSet (_get_or_create_stats st._client_stats cid).2 cid
            (_message_in_update (_get_or_create_stats st._client_stats cid).1
              size wall) }

/-- The field updates `_note_message_out` applies. -/
def _message_out_update (s : ClientStats) (size : Option Nat) (wall : Nat) :
    ClientStats :=
  { s with
    messages_out := s.messages_out + 1
    bytes_out := s.bytes_out + size.getD 0
    last_message_ts := some wall }

/-- `_note_message_out(obj, size)` at wall time `wall`. -/
def _note_message_out (st : StatsState) (size : Option Nat) (wall : Nat) :
    StatsState :=
  match _get_active_client_id st with
  | none => st
  | some cid =>
    if cid.isEmpty then st
    else
      { st with
        _client_stats :=
          statsSet (_get_or_create_stats st._client_stats cid).2 cid
            (_message_out_update (_get_or_create_stats st._client_stats cid).1
              size wall) }

/-- `failures[kind] = failures.get(kind, 0) + 1`. -/
def bumpFailure (f : FailureCounts) : FailureKind → FailureCounts
  | .timeout => { f with timeout := f.timeout + 1 }
  | .bad_write => { f with bad_write := f.bad_write + 1 }
  | .bad_crc => { f with bad_crc := f.bad_crc + 1 }
  | .bad_header => { f with bad_header := f.bad_header + 1 }
  | .oversize => { f with oversize := f.oversize + 1 }
  | .invalid_utf8 => { f with invalid_utf8 := f.invalid_utf8 + 1 }
  | .invalid_json => { f with invalid_json := f.invalid_json + 1 }
  | .handler => { f with handler := f.handler + 1 }
  | .framing => { f with framing := f.framing + 1 }

/-- `_note_failure(obj, kind)`. -/
def _note_failure (st : StatsState) (k : FailureKind) : StatsState :=
  match _get_active_client_id st with
  | none => st
  | some cid =>
    if cid.isEmpty then st
    else
      { st with
        _client_stats :=
          statsSet (_get_or_create_stats st._client_stats cid).2 cid
            { (_get_or_create_stats st._client_stats cid).1 with
              failures :=
                bumpFailure (_get_or_create_stats st._client_stats cid).1.failures
                  k } }

/-- `_framing_failure_kind`: the failure key chosen from the FramingError
message text; each `FrameKind` of the read path carries a distinct message
substring, `timeout_mid` carrying "socket read timeout". -/
def _framing_failure_kind : FrameKind → FailureKind
  | .bad_header => .bad_header
  | .bad_crc => .bad_crc
  | .oversize => .oversize
  | .invalid_utf8 => .invalid_utf8
  | .invalid_json => .invalid_json
  | .timeout_mid => .timeout

/-- `_max_ts(left, right)`: `right if right > left else left`, with `None`
treated as absent. -/
def _max_ts : Option Nat → Option Nat → Option Nat
  | none, right => right
  | some l, none => some l
  | some l, some r => if l < r then some r else some l

/-- `_merge_client_stats(dest, src)`: counters and durations sum, the
failures dict sums element-wise, the three timestamps take `_max_ts`, and a
connected `src` marks the result connected and pulls `_connected_since`
back when absent or strictly later on `dest`.  (The source's empty-`dest`
guard and `setdefault` never fire in the model: every record carries the
full `_new_client_stats` shape.) -/
def _merge_client_stats (dest src : ClientStats) : ClientStats :=
  { client_id := dest.client_id
    connected := if src.connected then true else dest.connected
    connects := dest.connects + src.connects
    disconnects := dest.disconnects + src.disconnects
    messages_in := dest.messages_in + src.messages_in
    messages_out := dest.messages_out + src.messages_out
    bytes_in := dest.bytes_in + src.bytes_in
    bytes_out := dest.bytes_out + src.bytes_out
    total_connected_duration :=
      dest.total_connected_duration + src.total_connected_duration
    failures :=
      ⟨dest.failures.timeout + src.failures.timeout,
       dest.failures.bad_write + src.failures.bad_write,
       dest.failures.bad_crc + src.failures.bad_crc,
       dest.failures.bad_header + src.failures.bad_header,
       dest.failures.oversize + src.failures.oversize,
       dest.failures.invalid_utf8 + src.failures.invalid_utf8,
       dest.failures.invalid_json + src.failures.invalid_json,
       dest.failures.handler + src.failures.handler,
       dest.failures.framing + src.failures.framing⟩
    last_connect_ts := _max_ts dest.last_connect_ts src.last_connect_ts
    last_disconnect_ts := _max_ts dest.last_disconnect_ts src.last_disconnect_ts
    last_message_ts := _max_ts dest.last_message_ts src.last_message_ts
    _connected_since :=
      if src.connected then
        match dest._connected_since, src._connected_since with
        | none, s => s
        | some d, some s => if s < d then some s else some d
        | some d, none => some d
      else dest._connected_since }

/-- `obj._client_stats.get(current_id) if current_id else None`: the record
under the current active id when that id is truthy. -/
def _existing_lookup (st : StatsState) : Option ClientStats :=
  match _get_active_client_id st with
  | some c => if c.isEmpty then none else statsGet st._client_stats c
  | none => none

/-- The `existing` record of `_set_client_identity`: the current record (a
fresh one when absent) with its `client_id` field rewritten to the new
identity. -/
def _rekeyed_existing (st : StatsState) (new_id : List Char) : ClientStats :=
  { (_existing_lookup st).getD (_new_client_stats new_id) with
    client_id := new_id }

/-- The stats map after `_set_client_identity` stores under the new key:
the re-keyed record, merged into a pre-existing record under that key. -/
def _identity_map (st : StatsState) (new_id : List Char) :
    List (List Char × ClientStats) :=
  match statsGet st._client_stats new_id with
  | none => statsSet st._client_stats new_id (_rekeyed_existing st new_id)
  | some target =>
      statsSet st._client_stats new_id
        (_merge_client_stats target (_rekeyed_existing st new_id))

/-- `_set_client_identity`'s final map: the old key popped when truthy and
different from the new one. -/
def _identity_map_popped (st : StatsState) (new_id : List Char) :
    List (List Char × ClientStats) :=
  match _get_active_client_id st with
  | some c =>
    if c.isEmpty = false ∧ c ≠ new_id then statsPop (_identity_map st new_id) c
    else _identity_map st new_id
  | none => _identity_map st new_id

/-- `_set_client_identity(obj, new_client_id)`: re-key the active record to
the new identity, merging into an existing record under the new key, then
drop the old key and activate the new id (also stored into `_client_id`). -/
def _set_client_identity (st : StatsState) (new_id : List Char) : StatsState :=
  if new_id.isEmpty then st
  else if _get_active_client_id st = some new_id then st
  else
    { _client_stats := _identity_map_popped st new_id
      _active_client_id := some new_id
      _client_id := some new_id }

/-- `_rekey_stats_map(stats_map)`: rebuild the map keyed by each record's
own `client_id` (falling back to the map key when falsy), merging records
that land on the same key. -/
def _rekey_stats_map (m : List (List Char × ClientStats)) :
    List (List Char × ClientStats) :=
  m.foldl
    (fun acc kv =>
      let key := if kv.2.client_id.isEmpty then kv.1 else kv.2.client_id
      match statsGet acc key with
      | some t => statsSet acc key (_merge_client_stats t kv.2)
      | none => statsSet acc key { kv.2 with client_id := key })
    []

/-- The snapshot `_format_client_stats` returns: the record's fields with
`_connected_since` popped and the derived `connected_duration`; the float
averages `avg_payload_in`/`avg_payload_out` (= bytes/messages) are real
divisions and stay outside the integer model. -/
structure FormattedStats where
  client_id : List Char
  connected : Bool
  connects : Nat
  disconnects : Nat
  messages_in : Nat
  messages_out : Nat
  bytes_in : Nat
  bytes_out : Nat
  total_connected_duration : Nat
  connected_duration : Nat
  failures : FailureCounts
  last_connect_ts : Option Nat
  last_disconnect_ts : Option Nat
  last_message_ts : Option Nat
deriving DecidableEq

/-- `_format_client_stats(stats, now_mono)`.  A `_connected_since` equal to
0 is falsy in Python, hence the explicit 0 test. -/
def _format_client_stats (s : ClientStats) (now_mono : Nat) : FormattedStats :=
  let current :=
    match s.connected, s._connected_since with
    | true, some cs => if cs = 0 then 0 else now_mono - cs
    | _, _ => 0
  { client_id := s.client_id
    connected := s.connected
    connects := s.connects
    disconnects := s.disconnects
    messages_in := s.messages_in
    messages_out := s.messages_out
    bytes_in := s.bytes_in
    bytes_out := s.bytes_out
    total_connected_duration :=
      if s.connected then s.total_connected_duration + current
      else s.total_connected_duration
    connected_duration := current
    failures := s.failures
    last_connect_ts := s.last_connect_ts
    last_disconnect_ts := s.last_disconnect_ts
    last_message_ts := s.last_message_ts }

/-- `get_client_stats(self)`: clone, re-key, format each record at the
current monotonic time, and count the connected ones. -/
def get_client_stats (st : StatsState) (now_mono : Nat) :
    Nat × List (List Char × FormattedStats) :=
  let m := _rekey_stats_map st._client_stats
  let clients := m.map (fun kv => (kv.1, _format_client_stats kv.2 now_mono))
  (clients.countP (fun kv => kv.2.connected), clients)

/-- The whitespace `str.strip()` removes (ASCII range; the full Unicode
table is out of scope). -/
def pyIsSpace (c : Char) : Bool :=
  c = ' ' || c = '\t' || c = '\n' || c = '\r' || c = '\x0b' || c = '\x0c'

/-- `value.strip()`. -/
def pyStrip (s : List Char) : List Char :=
  ((s.dropWhile pyIsSpace).reverse.dropWhile pyIsSpace).reverse

/-- `_normalize_client_id(value)`: `None` stays `None`; booleans and ints
go through `str` (a bool is an `int` in Python, so `True`/`False`);
strings are stripped, an empty result becoming `None`.  A container value
would go through `str()` whose repr text lies outside the byte-exact
model; no theorem exercises a container-valued id. -/
def _normalize_client_id : Json → Option (List Char)
  | .null => none
  | .bool b => some (if b then "True".toList else "False".toList)
  | .num n => some (intChars n)
  | .str s => let t := pyStrip s; if t.isEmpty then none else some t
  | .arr _ => none
  | .obj _ => none

/-- `obj.get(k)` on a decoded JSON object (duplicate keys were already
collapsed by `pyDict` at parse time, so first match is dict lookup). -/
def lookupMember : List (List Char × Json) → List Char → Option Json
  | [], _ => none
  | kv :: rest, k => if kv.1 = k then some kv.2 else lookupMember rest k

/-- `_extract_client_id(obj)`: only dicts carry an identity; a present
`"client"` key wins even when it normalizes to `None`, else `"client_id"`. -/
def _extract_client_id (obj : Json) : Option (List Char) :=
  match obj with
  | .obj ms =>
    match lookupMember ms "client".toList with
    | some v => _normalize_client_id v
    | none =>
      match lookupMember ms "client_id".toList with
      | some v => _normalize_client_id v
      | none => none
  | _ => none

/-- The stats effect of one decoded inbound message in
`_handle_client_messages`: adopt a carried identity, then count the
message. -/
def _handle_inbound_stats (st : StatsState) (obj : Json) (size : Option Nat)
    (wall : Nat) : StatsState :=
  let st1 :=
    match _extract_client_id obj with
    | some cid => if cid.isEmpty then st else _set_client_identity st cid
    | none => st
  _note_message_in st1 size wall

/-- The stats-affecting events a server run generates. -/
inductive StatsEvent where
  | connect (cid : List Char) (wall mono : Nat)
  | disconnect (wall mono : Nat)
  | message_in (size : Option Nat) (wall : Nat)
  | message_out (size : Option Nat) (wall : Nat)
  | failure (k : FailureKind)
  | identify (cid : List Char)
deriving DecidableEq

/-- Dispatch one event to its `_note_*` / `_set_client_identity` helper. -/
def applyEvent (st : StatsState) : StatsEvent → StatsState
  | .connect cid wall mono => _note_connect st cid wall mono
  | .disconnect wall mono => _note_disconnect st wall mono
  | .message_in size wall => _note_message_in st size wall
  | .message_out size wall => _note_message_out st size wall
  | .failure k => _note_failure st k
  | .identify cid => _set_client_identity st cid

/-- A whole event history applied in order. -/
def applyEvents (st : StatsState) (es : List StatsEvent) : StatsState :=
  es.foldl applyEvent st

/-- The stats state `ThreadedServer.__init__` sets up: empty map, no
active id, no peer id. -/
def initialStatsState : StatsState := ⟨[], none, none⟩

/-- Keys of the stats map are pairwise distinct (true of every map the
system builds, since Python dicts cannot repeat a key). -/
def statsNoDup (m : List (List Char × ClientStats)) : Prop :=
  m.Pairwise (fun a b => a.1 ≠ b.1)

/-- The inductive invariant behind C6: a disconnect is only counted for a
record currently marked connected. -/
def InvRec (s : ClientStats) : Prop :=
  s.disconnects + (if s.connected then 1 else 0) ≤ s.connects

/-- `InvRec` for every record of a stats map. -/
def InvMap (m : List (List Char × ClientStats)) : Prop :=
  ∀ kv ∈ m, InvRec kv.2

theorem mem_statsSet {m : List (List Char × ClientStats)} {k v kv}
    (h : kv ∈ statsSet m k v) : kv = (k, v) ∨ kv ∈ m := by
  induction m with
  | nil =>
    rw [statsSet] at h
    rcases List.mem_singleton.mp h with h
    exact Or.inl h
  | cons kv0 rest ih =>
    rw [statsSet] at h
    by_cases he : kv0.1 = k
    · rw [if_pos he] at h
      rcases List.mem_cons.mp h with h | h
      · exact Or.inl h
      · exact Or.inr (List.mem_cons_of_mem _ h)
    · rw [if_neg he] at h
      rcases List.mem_cons.mp h with h | h
      · exact Or.inr (h ▸ List.mem_cons_self _ _)
      · rcases ih h with h | h
        · exact Or.inl h
        · exact Or.inr (List.mem_cons_of_mem _ h)

theorem mem_statsPop {m : List (List Char × ClientStats)} {k kv}
    (h : kv ∈ statsPop m k) : kv ∈ m := by
  induction m with
  | nil => rw [statsPop] at h; cases h
  | cons kv0 rest ih =>
    rw [statsPop] at h
    by_cases he : kv0.1 = k
    · rw [if_pos he] at h
      exact List.mem_cons_of_mem _ h
    · rw [if_neg he] at h
      rcases List.mem_cons.mp h with h | h
      · exact h ▸ List.mem_cons_self _ _
      · exact List.mem_cons_of_mem _ (ih h)

theorem statsGet_mem {m : List (List Char × ClientStats)} {k s}
    (h : statsGet m k = some s) : (k, s) ∈ m := by
  induction m with
  | nil => rw [statsGet] at h; cases h
  | cons kv0 rest ih =>
    rw [statsGet] at h
    by_cases he : kv0.1 = k
    · rw [if_pos he] at h
      have : kv0 = (k, s) := by
        cases kv0
        cases h
        simp_all
      exact this ▸ List.mem_cons_self _ _
    · rw [if_neg he] at h
      exact List.mem_cons_of_mem _ (ih h)

theorem statsGet_statsSet_self (m : List (List Char × ClientStats)) (k v) :
    statsGet (statsSet m k v) k = some v := by
  induction m with
  | nil => rw [statsSet, statsGet, if_pos rfl]
  | cons kv0 rest ih =>
    rw [statsSet]
    by_cases he : kv0.1 = k
    · rw [if_pos he, statsGet, if_pos rfl]
    · rw [if_neg he, statsGet, if_neg he, ih]

theorem statsGet_statsSet_ne {m : List (List Char × ClientStats)} {k k'} (v)
    (h : k' ≠ k) : statsGet (statsSet m k v) k' = statsGet m k' := by
  induction m with
  | nil =>
    rw [statsSet, statsGet, statsGet, if_neg (fun he : k = k' => h he.symm), statsGet]
  | cons kv0 rest ih =>
    rw [statsSet]
    by_cases he : kv0.1 = k
    · rw [if_pos he, statsGet, if_neg (fun hx : k = k' => h hx.symm), statsGet,
        if_neg (fun hx : kv0.1 = k' => h ((he.symm.trans hx).symm))]
    · rw [if_neg he, statsGet, statsGet]
      by_cases h0 : kv0.1 = k'
      · rw [if_pos h0, if_pos h0]
      · rw [if_neg h0, if_neg h0, ih]

theorem statsGet_statsPop_ne {m : List (List Char × ClientStats)} {k k'}
    (h : k' ≠ k) : statsGet (statsPop m k) k' = statsGet m k' := by
  induction m with
  | nil => rfl
  | cons kv0 rest ih =>
    rw [statsPop]
    by_cases he : kv0.1 = k
    · rw [if_pos he, statsGet, if_neg (fun hx : kv0.1 = k' => h ((he.symm.trans hx).symm))]
    · rw [if_neg he, statsGet, statsGet]
      by_cases h0 : kv0.1 = k'
      · rw [if_pos h0, if_pos h0]
      · rw [if_neg h0, if_neg h0, ih]

theorem statsGet_eq_none_of_not_key {m : List (List Char × ClientStats)} {k}
    (h : ∀ kv ∈ m, kv.1 ≠ k) : statsGet m k = none := by
  induction m with
  | nil => rfl
  | cons kv0 rest ih =>
    rw [statsGet, if_neg (h kv0 (List.mem_cons_self _ _))]
    exact ih (fun kv hkv => h kv (List.mem_cons_of_mem _ hkv))

theorem statsNoDup_statsSet {m : List (List Char × ClientStats)} {k} (v)
    (h : statsNoDup m) : statsNoDup (statsSet m k v) := by
  induction m with
  | nil =>
    rw [statsSet]
    exact List.pairwise_singleton _ _
  | cons kv0 rest ih =>
    rw [statsNoDup, List.pairwise_cons] at h
    rw [statsSet]
    by_cases he : kv0.1 = k
    · rw [if_pos he]
      rw [statsNoDup, List.pairwise_cons]
      exact ⟨fun kv hkv hx => absurd (he.trans hx) (h.1 kv hkv), h.2⟩
    · rw [if_neg he]
      rw [statsNoDup, List.pairwise_cons]
      refine ⟨fun kv hkv => ?_, ih h.2⟩
      rcases mem_statsSet hkv with hkv | hkv
      · rw [hkv]
        exact he
      · exact h.1 kv hkv

theorem statsGet_statsPop_self {m : List (List Char × ClientStats)} {k}
    (h : statsNoDup m) : statsGet (statsPop m k) k = none := by
  induction m with
  | nil => rfl
  | cons kv0 rest ih =>
    rw [statsNoDup, List.pairwise_cons] at h
    rw [statsPop]
    by_cases he : kv0.1 = k
    · rw [if_pos he]
      exact statsGet_eq_none_of_not_key
        (fun kv hkv hx => absurd (he.trans hx.symm) (h.1 kv hkv))
    · rw [if_neg he, statsGet, if_neg he]
      exact ih h.2

theorem invMap_statsSet {m : List (List Char × ClientStats)} {k v}
    (hm : InvMap m) (hv : InvRec v) : InvMap (statsSet m k v) := by
  intro kv hkv
  rcases mem_statsSet hkv with h | h
  · rw [h]
    exact hv
  · exact hm kv h

theorem invMap_statsPop {m : List (List Char × ClientStats)} {k}
    (hm : InvMap m) : InvMap (statsPop m k) :=
  fun kv hkv => hm kv (mem_statsPop hkv)

theorem invRec_new (cid : List Char) : InvRec (_new_client_stats cid) := by
  rw [InvRec, _new_client_stats]
  simp

theorem invRec_get_or_create {m : List (List Char × ClientStats)}
    (hm : InvMap m) (cid : List Char) :
    InvRec (_get_or_create_stats m cid).1 ∧ InvMap (_get_or_create_stats m cid).2 := by
  rw [_get_or_create_stats]
  cases hg : statsGet m cid with
  | some s => exact ⟨hm _ (statsGet_mem hg), hm⟩
  | none => exact ⟨invRec_new cid, invMap_statsSet hm (invRec_new cid)⟩

theorem invRec_merge {d s : ClientStats} (hd : InvRec d) (hs : InvRec s) :
    InvRec (_merge_client_stats d s) := by
  rw [InvRec] at hd hs ⊢
  rw [_merge_client_stats]
  simp only
  cases hcd : d.connected <;> cases hcs : s.connected <;>
    simp [hcd, hcs] at hd hs ⊢ <;> omega

theorem invRec_connect_update {s : ClientStats} (h : InvRec s) (wall mono : Nat) :
    InvRec (_connect_update s wall mono) := by
  rw [InvRec] at h ⊢
  rw [_connect_update]
  simp only
  cases hc : s.connected <;> rw [hc] at h <;> simp at h ⊢ <;> omega

theorem invRec_disconnect_update {s : ClientStats} (h : InvRec s)
    (hc : s.connected = true) (wall mono : Nat) :
    InvRec (_disconnect_update s wall mono) := by
  rw [InvRec] at h ⊢
  rw [_disconnect_update]
  simp only
  rw [hc] at h
  simp at h ⊢
  omega

theorem invMap_note_connect {st : StatsState} (h : InvMap st._client_stats)
    (cid0 : List Char) (wall mono : Nat) :
    InvMap (_note_connect st cid0 wall mono)._client_stats := by
  rw [_note_connect]
  exact invMap_statsSet
    (invRec_get_or_create h (if cid0.isEmpty then "unknown".toList else cid0)).2
    (invRec_connect_update
      (invRec_get_or_create h (if cid0.isEmpty then "unknown".toList else cid0)).1
      wall mono)

theorem invMap_note_disconnect {st : StatsState} (h : InvMap st._client_stats)
    (wall mono : Nat) : InvMap (_note_disconnect st wall mono)._client_stats := by
  rw [_note_disconnect]
  split
  · exact h
  · split
    · exact h
    · split
      · exact (invRec_get_or_create h _).2
      · rename_i cid heq hemp hcon
        refine invMap_statsSet (invRec_get_or_create h cid).2
          (invRec_disconnect_update (invRec_get_or_create h cid).1 ?_ wall mono)
        cases hc : (_get_or_create_stats st._client_stats cid).1.connected
        · exact absurd hc hcon
        · rfl

theorem invMap_note_message_in {st : StatsState} (h : InvMap st._client_stats)
    (size : Option Nat) (wall : Nat) :
    InvMap (_note_message_in st size wall)._client_stats := by
  rw [_note_message_in]
  split
  · exact h
  · split
    · exact h
    · exact invMap_statsSet (invRec_get_or_create h _).2
        (invRec_get_or_create h _).1

theorem invMap_note_message_out {st : StatsState} (h : InvMap st._client_stats)
    (size : Option Nat) (wall : Nat) :
    InvMap (_note_message_out st size wall)._client_stats := by
  rw [_note_message_out]
  split
  · exact h
  · split
    · exact h
    · exact invMap_statsSet (invRec_get_or_create h _).2
        (invRec_get_or_create h _).1

theorem invMap_note_failure {st : StatsState} (h : InvMap st._client_stats)
    (k : FailureKind) : InvMap (_note_failure st k)._client_stats := by
  rw [_note_failure]
  split
  · exact h
  · split
    · exact h
    · exact invMap_statsSet (invRec_get_or_create h _).2
        (invRec_get_or_create h _).1

theorem invRec_rekeyed_existing {st : StatsState} (h : InvMap st._client_stats)
    (new_id : List Char) : InvRec (_rekeyed_existing st new_id) := by
  rw [_rekeyed_existing]
  have hbase :
      InvRec ((_existing_lookup st).getD (_new_client_stats new_id)) := by
    rw [_existing_lookup]
    split
    · next c _ =>
      by_cases he : c.isEmpty
      · rw [if_pos he]
        exact invRec_new new_id
      · rw [if_neg he]
        cases hg : statsGet st._client_stats c with
        | none => exact invRec_new new_id
        | some s => exact h _ (statsGet_mem hg)
    · exact invRec_new new_id
  exact hbase

theorem invMap_identity_map {st : StatsState} (h : InvMap st._client_stats)
    (new_id : List Char) : InvMap (_identity_map st new_id) := by
  rw [_identity_map]
  split
  · exact invMap_statsSet h (invRec_rekeyed_existing h new_id)
  · next target hg =>
    exact invMap_statsSet h
      (invRec_merge (h _ (statsGet_mem hg)) (invRec_rekeyed_existing h new_id))

theorem invMap_set_client_identity {st : StatsState} (h : InvMap st._client_stats)
    (new_id : List Char) :
    InvMap (_set_client_identity st new_id)._client_stats := by
  rw [_set_client_identity]
  split
  · exact h
  · split
    · exact h
    · rw [_identity_map_popped]
      split
      · split
        · exact invMap_statsPop (invMap_identity_map h new_id)
        · exact invMap_identity_map h new_id
      · exact invMap_identity_map h new_id

theorem invMap_applyEvent {st : StatsState} (h : InvMap st._client_stats)
    (e : StatsEvent) : InvMap (applyEvent st e)._client_stats := by
  cases e with
  | connect cid wall mono => exact invMap_note_connect h cid wall mono
  | disconnect wall mono => exact invMap_note_disconnect h wall mono
  | message_in size wall => exact invMap_note_message_in h size wall
  | message_out size wall => exact invMap_note_message_out h size wall
  | failure k => exact invMap_note_failure h k
  | identify cid => exact invMap_set_client_identity h cid

theorem invMap_applyEvents (es : List StatsEvent) :
    ∀ st : StatsState, InvMap st._client_stats →
      InvMap (applyEvents st es)._client_stats := by
  induction es with
  | nil => intro st h; exact h
  | cons e rest ih =>
    intro st h
    exact ih (applyEvent st e) (invMap_applyEvent h e)

/-- Claim C6: starting from the server's initial stats state, after any
sequence of stats events (connects, disconnects, messages in and out,
failures, identity re-keys with their merges), every record in the stats
map has `disconnects ≤ connects`. -/
theorem c6_disconnects_le_connects (es : List StatsEvent)
    (kv : List Char × ClientStats)
    (hkv : kv ∈ (applyEvents initialStatsState es)._client_stats) :
    kv.2.disconnects ≤ kv.2.connects := by
  have h := invMap_applyEvents es initialStatsState (fun kv hkv => by cases hkv) kv hkv
  rw [InvRec] at h
  omega

/-- Witness for C6: the record after a connect followed by a clean
disconnect has one connect and one disconnect. -/
theorem c6_witness :
    ("a".toList,
      (⟨"a".toList, false, 1, 1, 0, 0, 0, 0, 3, _new_failure_counts,
        some 5, some 9, none, none⟩ : ClientStats)) ∈
      (applyEvents initialStatsState
        [.connect "a".toList 5 7, .disconnect 9 10])._client_stats
    ∧ (1 : Nat) ≤ 1 := by
  refine ⟨by decide, ?_⟩
  exact c6_disconnects_le_connects
    [.connect "a".toList 5 7, .disconnect 9 10]
    ("a".toList,
      ⟨"a".toList, false, 1, 1, 0, 0, 0, 0, 3, _new_failure_counts,
        some 5, some 9, none, none⟩)
    (by decide)

theorem statsNoDup_identity_map {st : StatsState} (h : statsNoDup st._client_stats)
    (new_id : List Char) : statsNoDup (_identity_map st new_id) := by
  rw [_identity_map]
  split
  · exact statsNoDup_statsSet _ h
  · exact statsNoDup_statsSet _ h

/-- Claim C5: re-keying an inbound identity.  First, `_merge_client_stats`
sums the six counters and the total duration, sums the failures dict
element-wise, takes the max of each timestamp pair, ORs `connected`, and
keeps the earliest `_connected_since` (pulled from `src` exactly when `src`
is connected).  Second, `_set_client_identity` under a truthy active id
distinct from the new one removes the old key, activates the new id, and
stores the re-keyed record under the new key — merged into the previous
record when one exists there.  Third, the concrete scenario: after a peer
connects, sends an anonymous message and then a message carrying
`client = "svc-42"`, `get_client_stats()` holds exactly one record, keyed
`svc-42`, with `messages_in = 2`. -/
theorem c5_identity_rekey_merge :
    (∀ dest src : ClientStats,
      (_merge_client_stats dest src).connects = dest.connects + src.connects
      ∧ (_merge_client_stats dest src).disconnects
          = dest.disconnects + src.disconnects
      ∧ (_merge_client_stats dest src).messages_in
          = dest.messages_in + src.messages_in
      ∧ (_merge_client_stats dest src).messages_out
          = dest.messages_out + src.messages_out
      ∧ (_merge_client_stats dest src).bytes_in = dest.bytes_in + src.bytes_in
      ∧ (_merge_client_stats dest src).bytes_out = dest.bytes_out + src.bytes_out
      ∧ (_merge_client_stats dest src).total_connected_duration
          = dest.total_connected_duration + src.total_connected_duration
      ∧ (_merge_client_stats dest src).failures.timeout
          = dest.failures.timeout + src.failures.timeout
      ∧ (_merge_client_stats dest src).failures.bad_write
          = dest.failures.bad_write + src.failures.bad_write
      ∧ (_merge_client_stats dest src).failures.bad_crc
          = dest.failures.bad_crc + src.failures.bad_crc
      ∧ (_merge_client_stats dest src).failures.bad_header
          = dest.failures.bad_header + src.failures.bad_header
      ∧ (_merge_client_stats dest src).failures.oversize
          = dest.failures.oversize + src.failures.oversize
      ∧ (_merge_client_stats dest src).failures.invalid_utf8
          = dest.failures.invalid_utf8 + src.failures.invalid_utf8
      ∧ (_merge_client_stats dest src).failures.invalid_json
          = dest.failures.invalid_json + src.failures.invalid_json
      ∧ (_merge_client_stats dest src).failures.handler
          = dest.failures.handler + src.failures.handler
      ∧ (_merge_client_stats dest src).failures.framing
          = dest.failures.framing + src.failures.framing
      ∧ (_merge_client_stats dest src).connected
          = (dest.connected || src.connected)
      ∧ (∀ a b, dest.last_connect_ts = some a → src.last_connect_ts = some b →
          (_merge_client_stats dest src).last_connect_ts = some (max a b))
      ∧ (∀ a b, dest.last_disconnect_ts = some a →
          src.last_disconnect_ts = some b →
          (_merge_client_stats dest src).last_disconnect_ts = some (max a b))
      ∧ (∀ a b, dest.last_message_ts = some a → src.last_message_ts = some b →
          (_merge_client_stats dest src).last_message_ts = some (max a b))
      ∧ (∀ a b, src.connected = true → dest._connected_since = some a →
          src._connected_since = some b →
          (_merge_client_stats dest src)._connected_since = some (min a b))
      ∧ (src.connected = true → dest._connected_since = none →
          (_merge_client_stats dest src)._connected_since
            = src._connected_since))
    ∧ (∀ (st : StatsState) (cur new_id : List Char) (existing : ClientStats),
        statsNoDup st._client_stats →
        _get_active_client_id st = some cur →
        cur.isEmpty = false →
        new_id.isEmpty = false →
        cur ≠ new_id →
        statsGet st._client_stats cur = some existing →
        ((_set_client_identity st new_id)._active_client_id = some new_id
          ∧ statsGet (_set_client_identity st new_id)._client_stats cur = none
          ∧ (statsGet st._client_stats new_id = none →
              statsGet (_set_client_identity st new_id)._client_stats new_id
                = some { existing with client_id := new_id })
          ∧ (∀ target, statsGet st._client_stats new_id = some target →
              statsGet (_set_client_identity st new_id)._client_stats new_id
                = some (_merge_client_stats target
                    { existing with client_id := new_id }))))
    ∧ ((get_client_stats
          (_handle_inbound_stats
            (_handle_inbound_stats
              (_note_connect initialStatsState "127.0.0.1:54321".toList 10 10)
              (Json.obj [("op".toList, Json.str "ping".toList)]) (some 20) 11)
            (Json.obj [("client".toList, Json.str "svc-42".toList),
              ("op".toList, Json.str "ping".toList)]) (some 30) 12)
          50).2.map (fun kv => (kv.1, kv.2.messages_in))
        = [("svc-42".toList, 2)]) := by
  refine ⟨?_, ?_, by decide⟩
  · intro dest src
    refine ⟨rfl, rfl, rfl, rfl, rfl, rfl, rfl, rfl, rfl, rfl, rfl, rfl, rfl, rfl,
      rfl, rfl, ?_, ?_, ?_, ?_, ?_, ?_⟩
    · show (if src.connected then true else dest.connected)
        = (dest.connected || src.connected)
      cases src.connected <;> cases dest.connected <;> rfl
    · intro a b ha hb
      show _max_ts dest.last_connect_ts src.last_connect_ts = some (max a b)
      rw [ha, hb, _max_ts]
      split <;> (congr 1 <;> omega)
    · intro a b ha hb
      show _max_ts dest.last_disconnect_ts src.last_disconnect_ts = some (max a b)
      rw [ha, hb, _max_ts]
      split <;> (congr 1 <;> omega)
    · intro a b ha hb
      show _max_ts dest.last_message_ts src.last_message_ts = some (max a b)
      rw [ha, hb, _max_ts]
      split <;> (congr 1 <;> omega)
    · intro a b hc ha hb
      show (if src.connected then
          match dest._connected_since, src._connected_since with
          | none, s => s
          | some d, some s => if s < d then some s else some d
          | some d, none => some d
        else dest._connected_since) = some (min a b)
      rw [hc, ha, hb, if_pos rfl]
      show (if b < a then some b else some a) = some (min a b)
      split <;> (congr 1 <;> omega)
    · intro hc hd
      show (if src.connected then
          match dest._connected_since, src._connected_since with
          | none, s => s
          | some d, some s => if s < d then some s else some d
          | some d, none => some d
        else dest._connected_since) = src._connected_since
      rw [hc, hd, if_pos rfl]
  · intro st cur new_id existing hnd ha hce hne hdiff hget
    have hni : ¬(new_id.isEmpty = true) := by rw [hne]; exact Bool.false_ne_true
    have hcurne : ¬(_get_active_client_id st = some new_id) := by
      rw [ha]
      intro hx
      exact hdiff (Option.some.inj hx)
    have hset : _set_client_identity st new_id
        = { _client_stats := _identity_map_popped st new_id,
            _active_client_id := some new_id, _client_id := some new_id } := by
      rw [_set_client_identity, if_neg hni, if_neg hcurne]
    have hpop : _identity_map_popped st new_id
        = statsPop (_identity_map st new_id) cur := by
      rw [_identity_map_popped, ha]
      show (if cur.isEmpty = false ∧ cur ≠ new_id then
          statsPop (_identity_map st new_id) cur
        else _identity_map st new_id) = statsPop (_identity_map st new_id) cur
      rw [if_pos ⟨hce, hdiff⟩]
    have hlook : _existing_lookup st = some existing := by
      rw [_existing_lookup, ha]
      show (if cur.isEmpty then none else statsGet st._client_stats cur)
        = some existing
      rw [if_neg (by rw [hce]; exact Bool.false_ne_true), hget]
    have hrek : _rekeyed_existing st new_id
        = { existing with client_id := new_id } := by
      rw [_rekeyed_existing, hlook]
      rfl
    refine ⟨by rw [hset], ?_, ?_, ?_⟩
    · rw [hset]
      show statsGet (_identity_map_popped st new_id) cur = none
      rw [hpop]
      exact statsGet_statsPop_self (statsNoDup_identity_map hnd new_id)
    · intro hnone
      rw [hset]
      show statsGet (_identity_map_popped st new_id) new_id
        = some { existing with client_id := new_id }
      rw [hpop, statsGet_statsPop_ne (fun hx => hdiff hx.symm), _identity_map,
        hnone, statsGet_statsSet_self, hrek]
    · intro target htgt
      rw [hset]
      show statsGet (_identity_map_popped st new_id) new_id
        = some (_merge_client_stats target { existing with client_id := new_id })
      rw [hpop, statsGet_statsPop_ne (fun hx => hdiff hx.symm), _identity_map,
        htgt, statsGet_statsSet_self, hrek]

/-- Witness for C5: re-keying a single fresh record drops the old key, and
merging two fresh records sums their (zero) connect counters. -/
theorem c5_witness :
    statsGet
      (_set_client_identity
        ⟨[("old".toList, _new_client_stats "old".toList)],
          some "old".toList, none⟩ "new".toList)._client_stats
      "old".toList = none
    ∧ (_merge_client_stats (_new_client_stats "a".toList)
        (_new_client_stats "b".toList)).connects = 0 := by
  constructor
  · exact (c5_identity_rekey_merge.2.1
      ⟨[("old".toList, _new_client_stats "old".toList)],
        some "old".toList, none⟩
      "old".toList "new".toList (_new_client_stats "old".toList)
      (by rw [statsNoDup]; exact List.pairwise_singleton _ _)
      rfl rfl rfl (by decide) rfl).2.1
  · rw [(c5_identity_rekey_merge.1 (_new_client_stats "a".toList)
      (_new_client_stats "b".toList)).1]
    rfl

/-! Bit-level corruption of a frame.  A bit position `i` addresses bit
`i % 8` of byte `i / 8`. -/

/-- The frame with bit `i` flipped. -/
def flipBit (i : Nat) (B : List Nat) : List Nat :=
  B.set (i / 8) (B.getD (i / 8) 0 ^^^ 2 ^ (i % 8))

/-- The payload bytes of the ASCII digits `103163507045`, a JSON number
whose CRC-32 equals that of its first eight digits `10316350`. -/
def c2payload : List Nat := [49, 48, 51, 49, 54, 51, 53, 48, 55, 48, 52, 53]

set_option maxRecDepth 8000

/-- Counterexample to claim C2: flipping bit 58 of the frame for the
payload `103163507045` — bit 2 of byte 7, the low byte of the big-endian
length field, turning the length 12 into 8 — makes `read_obj` return the
decoded value `10316350` (the stored checksum matches the 8-digit prefix
by CRC-32 collision), with the four leftover digit bytes `7045` still in
the stream.  The corrupted frame decodes to a value instead of failing. -/
theorem c2_counterexample :
    read_obj ⟨flipBit 58 (frameBytes c2payload), .timeout⟩
      (some DEFAULT_MAX_MESSAGE_SIZE)
      = .ok (.num 10316350) ⟨[55, 48, 52, 53], .timeout⟩ := rfl

theorem xor_pow_ne (b t : Nat) : b ^^^ 2 ^ t ≠ b := by
  intro h
  have h2 := congrArg (fun z => b ^^^ z) h
  simp only [← Nat.xor_assoc, Nat.xor_self, Nat.zero_xor] at h2
  exact (show (0 : Nat) < 2 ^ t by positivity).ne' h2

theorem xor_byte_lt {b : Nat} (hb : b < 256) {t : Nat} (ht : t < 8) :
    b ^^^ 2 ^ t < 256 := by
  have h1 : (2 : Nat) ^ t < 2 ^ 8 := Nat.pow_lt_pow_right (by norm_num) ht
  exact Nat.xor_lt_two_pow hb h1

theorem be32_be32val {a b c d : Nat} (ha : a < 256) (hb : b < 256)
    (hc : c < 256) (hd : d < 256) :
    be32 (be32val [a, b, c, d]) = [a, b, c, d] := by
  rw [be32val, be32]
  have h1 : (((a * 256 + b) * 256 + c) * 256 + d) / 2 ^ 24 % 256 = a := by omega
  have h2 : (((a * 256 + b) * 256 + c) * 256 + d) / 2 ^ 16 % 256 = b := by omega
  have h3 : (((a * 256 + b) * 256 + c) * 256 + d) / 2 ^ 8 % 256 = c := by omega
  have h4 : (((a * 256 + b) * 256 + c) * 256 + d) % 256 = d := by omega
  rw [h1, h2, h3, h4]

theorem be32val_quad_lt {a b c d : Nat} (ha : a < 256) (hb : b < 256)
    (hc : c < 256) (hd : d < 256) : be32val [a, b, c, d] < 2 ^ 32 := by
  rw [be32val]
  omega

theorem read_obj_bad_magic {B : List Nat} {e : EndK} {M : Option Nat}
    (hlen : 12 ≤ B.length) (hmag : B.take 4 ≠ FRAME_MAGIC) :
    read_obj ⟨B, e⟩ M = .err (.framing .bad_header) true ⟨B.drop 12, e⟩ := by
  simp only [read_obj, _read_header_bad_magic hlen hmag]

theorem read_obj_crc_mismatch {q : List Nat} {e : EndK} {m n c' : Nat}
    (hn : n = q.length) (hnlt : n < 2 ^ 32) (hc' : c' < 2 ^ 32) (hlen : n ≤ m)
    (hne : crc32 q ≠ c') :
    read_obj ⟨genHdr n c' ++ q, e⟩ (some m)
      = .err (.framing .bad_crc) true ⟨[], e⟩ := by
  subst hn
  have h1 : _read_header ⟨genHdr q.length c' ++ q, e⟩ (some m)
      = .ok q.length c' ⟨q, e⟩ := _read_header_ok hnlt hc' hlen
  have h2 : _read ⟨q, e⟩ q.length false = .ok q ⟨[], e⟩ := by
    rw [@_read_exact ⟨q, e⟩ q.length (le_refl _) false]
    rw [show (⟨q, e⟩ : RecvStream).buf = q from rfl, List.take_length,
      List.drop_length]
  simp only [read_obj, h1, h2]
  rw [if_pos hne]

/-- Claim C2 (amended): for a well-formed frame over payload bytes `p`
(each < 256, length within the configured `max_message_size < 2^32`),
flipping any single bit of the magic, checksum or payload region — every
bit outside the length field, bits 32..63 — makes `read_obj` fail with
`bad_header` (magic region) or `bad_crc` (checksum or payload region),
closing the connection and never yielding a value.  Length-field flips are
exempt: as `c2_counterexample` shows, one can redirect the stored checksum
onto a CRC-colliding prefix of the payload and decode successfully. -/
theorem c2_bit_flip_amended (p : List Nat) (m i : Nat) (e : EndK)
    (hp : ∀ b ∈ p, b < 256) (hlen : p.length ≤ m) (hm : m < 2 ^ 32)
    (hi : i < 8 * (frameBytes p).length) (hout : i < 32 ∨ 64 ≤ i) :
    ∃ fk rest, (fk = FrameKind.bad_header ∨ fk = FrameKind.bad_crc)
      ∧ read_obj ⟨flipBit i (frameBytes p), e⟩ (some m)
          = .err (.framing fk) true rest := by
  have hk8 : i % 8 < 8 := Nat.mod_lt _ (by norm_num)
  have hple : p.length < 2 ^ 32 := by omega
  have hc32 : crc32 p < 2 ^ 32 := crc32_lt hp
  have hBlen : (frameBytes p).length = 12 + p.length := frameBytes_length p
  have hmod : ∀ s : Nat, crc32 p / 2 ^ s % 256 < 256 :=
    fun s => Nat.mod_lt _ (by norm_num)
  rcases hout with hA | hBC
  · -- a flip in the four magic bytes: rejected as bad_header
    have hj4 : i / 8 = 0 ∨ i / 8 = 1 ∨ i / 8 = 2 ∨ i / 8 = 3 := by omega
    refine ⟨.bad_header, ⟨(flipBit i (frameBytes p)).drop 12, e⟩, Or.inl rfl, ?_⟩
    apply read_obj_bad_magic
    · rw [flipBit, List.length_set, hBlen]
      omega
    · rcases hj4 with hj | hj | hj | hj <;> intro hcontra <;>
        rw [flipBit, hj] at hcontra
      · exact xor_pow_ne 74 (i % 8) (congrArg (fun l => l.getD 0 0) hcontra)
      · exact xor_pow_ne 83 (i % 8) (congrArg (fun l => l.getD 1 0) hcontra)
      · exact xor_pow_ne 78 (i % 8) (congrArg (fun l => l.getD 2 0) hcontra)
      · exact xor_pow_ne 49 (i % 8) (congrArg (fun l => l.getD 3 0) hcontra)
  · rcases Nat.lt_or_ge i 96 with hB96 | hC
    · -- a flip in the four checksum bytes: the stored value moves off
      -- `crc32 p`, rejected as bad_crc after the payload is read
      have hj : i / 8 = 8 ∨ i / 8 = 9 ∨ i / 8 = 10 ∨ i / 8 = 11 := by omega
      refine ⟨.bad_crc, ⟨[], e⟩, Or.inr rfl, ?_⟩
      rcases hj with hj | hj | hj | hj
      · have hgd : (frameBytes p).getD 8 0 = crc32 p / 2 ^ 24 % 256 := rfl
        have hv : crc32 p / 2 ^ 24 % 256 ^^^ 2 ^ (i % 8) < 256 :=
          xor_byte_lt (hmod 24) hk8
        have hflip : flipBit i (frameBytes p)
            = genHdr p.length
                (be32val [crc32 p / 2 ^ 24 % 256 ^^^ 2 ^ (i % 8),
                  crc32 p / 2 ^ 16 % 256, crc32 p / 2 ^ 8 % 256, crc32 p % 256])
              ++ p := by
          rw [flipBit, hj, hgd]
          conv_rhs => rw [genHdr, be32_be32val hv (hmod 16) (hmod 8)
            (Nat.mod_lt _ (by norm_num))]
          rfl
        have hcne : crc32 p
            ≠ be32val [crc32 p / 2 ^ 24 % 256 ^^^ 2 ^ (i % 8),
                crc32 p / 2 ^ 16 % 256, crc32 p / 2 ^ 8 % 256, crc32 p % 256] := by
          rw [be32val]
          intro hcontra
          have hx := xor_pow_ne (crc32 p / 2 ^ 24 % 256) (i % 8)
          omega
        rw [hflip]
        exact read_obj_crc_mismatch rfl hple
          (be32val_quad_lt hv (hmod 16) (hmod 8) (Nat.mod_lt _ (by norm_num)))
          hlen hcne
      · have hgd : (frameBytes p).getD 9 0 = crc32 p / 2 ^ 16 % 256 := rfl
        have hv : crc32 p / 2 ^ 16 % 256 ^^^ 2 ^ (i % 8) < 256 :=
          xor_byte_lt (hmod 16) hk8
        have hflip : flipBit i (frameBytes p)
            = genHdr p.length
                (be32val [crc32 p / 2 ^ 24 % 256,
                  crc32 p / 2 ^ 16 % 256 ^^^ 2 ^ (i % 8),
                  crc32 p / 2 ^ 8 % 256, crc32 p % 256])
              ++ p := by
          rw [flipBit, hj, hgd]
          conv_rhs => rw [genHdr, be32_be32val (hmod 24) hv (hmod 8)
            (Nat.mod_lt _ (by norm_num))]
          rfl
        have hcne : crc32 p
            ≠ be32val [crc32 p / 2 ^ 24 % 256,
                crc32 p / 2 ^ 16 % 256 ^^^ 2 ^ (i % 8),
                crc32 p / 2 ^ 8 % 256, crc32 p % 256] := by
          rw [be32val]
          intro hcontra
          have hx := xor_pow_ne (crc32 p / 2 ^ 16 % 256) (i % 8)
          omega
        rw [hflip]
        exact read_obj_crc_mismatch rfl hple
          (be32val_quad_lt (hmod 24) hv (hmod 8) (Nat.mod_lt _ (by norm_num)))
          hlen hcne
      · have hgd : (frameBytes p).getD 10 0 = crc32 p / 2 ^ 8 % 256 := rfl
        have hv : crc32 p / 2 ^ 8 % 256 ^^^ 2 ^ (i % 8) < 256 :=
          xor_byte_lt (hmod 8) hk8
        have hflip : flipBit i (frameBytes p)
            = genHdr p.length
                (be32val [crc32 p / 2 ^ 24 % 256, crc32 p / 2 ^ 16 % 256,
                  crc32 p / 2 ^ 8 % 256 ^^^ 2 ^ (i % 8), crc32 p % 256])
              ++ p := by
          rw [flipBit, hj, hgd]
          conv_rhs => rw [genHdr, be32_be32val (hmod 24) (hmod 16) hv
            (Nat.mod_lt _ (by norm_num))]
          rfl
        have hcne : crc32 p
            ≠ be32val [crc32 p / 2 ^ 24 % 256, crc32 p / 2 ^ 16 % 256,
                crc32 p / 2 ^ 8 % 256 ^^^ 2 ^ (i % 8), crc32 p % 256] := by
          rw [be32val]
          intro hcontra
          have hx := xor_pow_ne (crc32 p / 2 ^ 8 % 256) (i % 8)
          omega
        rw [hflip]
        exact read_obj_crc_mismatch rfl hple
          (be32val_quad_lt (hmod 24) (hmod 16) hv (Nat.mod_lt _ (by norm_num)))
          hlen hcne
      · have hgd : (frameBytes p).getD 11 0 = crc32 p % 256 := rfl
        have hv : crc32 p % 256 ^^^ 2 ^ (i % 8) < 256 :=
          xor_byte_lt (Nat.mod_lt _ (by norm_num)) hk8
        have hflip : flipBit i (frameBytes p)
            = genHdr p.length
                (be32val [crc32 p / 2 ^ 24 % 256, crc32 p / 2 ^ 16 % 256,
                  crc32 p / 2 ^ 8 % 256, crc32 p % 256 ^^^ 2 ^ (i % 8)])
              ++ p := by
          rw [flipBit, hj, hgd]
          conv_rhs => rw [genHdr, be32_be32val (hmod 24) (hmod 16) (hmod 8) hv]
          rfl
        have hcne : crc32 p
            ≠ be32val [crc32 p / 2 ^ 24 % 256, crc32 p / 2 ^ 16 % 256,
                crc32 p / 2 ^ 8 % 256, crc32 p % 256 ^^^ 2 ^ (i % 8)] := by
          rw [be32val]
          intro hcontra
          have hx := xor_pow_ne (crc32 p % 256) (i % 8)
          omega
        rw [hflip]
        exact read_obj_crc_mismatch rfl hple
          (be32val_quad_lt (hmod 24) (hmod 16) (hmod 8) hv) hlen hcne
    · -- a flip in the payload: the CRC-32 of the read payload moves off the
      -- stored checksum (single-bit flips always change the CRC)
      have hi' : i < 8 * (12 + p.length) := by rw [hBlen] at hi; exact hi
      have ht : i / 8 - 12 < p.length := by omega
      have hgd : (frameBytes p).getD (i / 8) 0 = p.getD (i / 8 - 12) 0 := by
        rw [frameBytes_eq,
          List.getD_append_right _ _ _ _ (by rw [frameHdr_length]; omega),
          frameHdr_length]
      have hflip : flipBit i (frameBytes p)
          = genHdr p.length (crc32 p)
            ++ p.set (i / 8 - 12) (p.getD (i / 8 - 12) 0 ^^^ 2 ^ (i % 8)) := by
        rw [flipBit, hgd, frameBytes_eq, frameHdr_genHdr, List.set_append,
          genHdr_length, if_neg (by omega)]
      have hqlen :
          (p.set (i / 8 - 12) (p.getD (i / 8 - 12) 0 ^^^ 2 ^ (i % 8))).length
            = p.length := List.length_set _ _ _
      have hcrcne :
          crc32 (p.set (i / 8 - 12) (p.getD (i / 8 - 12) 0 ^^^ 2 ^ (i % 8)))
            ≠ crc32 p := by
        rw [List.getD_eq_getElem _ _ ht]
        exact @crc32_flip_ne p (i / 8 - 12) (i % 8) ht hk8
      refine ⟨.bad_crc, ⟨[], e⟩, Or.inr rfl, ?_⟩
      rw [hflip]
      exact read_obj_crc_mismatch hqlen.symm hple hc32 hlen hcrcne

/-- Witness for the amended C2 theorem: flipping bit 0 (a magic byte) of the
frame for the one-digit payload `1` fails with `bad_header`. -/
theorem c2_witness :
    (∀ b ∈ [(49 : Nat)], b < 256)
    ∧ ∃ fk rest, (fk = FrameKind.bad_header ∨ fk = FrameKind.bad_crc)
        ∧ read_obj ⟨flipBit 0 (frameBytes [49]), .timeout⟩ (some 100)
            = .err (.framing fk) true rest :=
  ⟨by decide,
    c2_bit_flip_amended [49] 100 0 .timeout (by decide) (by decide) (by decide)
      (by decide) (Or.inl (by decide))⟩

end JSock
